import Mathlib

/-!
# Verification of the Among-Us-style game engine

A shallow embedding, in Lean 4, of the round resolver, observation
generator, validation rules and tournament scheduler of the repository
(`engine.py`, `engine/config.py`, `engine/tournament.py`).  Python
dictionaries become association lists that keep insertion order, Python
`int` becomes `Int`, and the mutating 13-step `ActionResolver.resolve_round`
becomes a pure state-passing pipeline with the same step structure and the
same early returns.  Theorems at the end of the file settle the frozen
claims about this code.
-/

namespace AmongUs

/-- Lexicographic byte comparison of characters, mirroring Python string
ordering by code point. -/
def charListLe : List Char → List Char → Bool
  | [], _ => true
  | _ :: _, [] => false
  | a :: as, b :: bs =>
    if a.toNat < b.toNat then true
    else if b.toNat < a.toNat then false
    else charListLe as bs

/-- `strLe a b` is Python `a <= b` on strings. -/
def strLe (a b : String) : Bool := charListLe a.data b.data

/-- Propositional form of `strLe`, used for sorting. -/
def strLeP (a b : String) : Prop := strLe a b = true

instance : DecidableRel strLeP := fun a b => by
  unfold strLeP
  infer_instance

theorem charListLe_total (as bs : List Char) :
    charListLe as bs = true ∨ charListLe bs as = true := by
  induction as generalizing bs with
  | nil => left; rfl
  | cons a as ih =>
    cases bs with
    | nil => right; rfl
    | cons b bs =>
      rcases Nat.lt_trichotomy a.toNat b.toNat with h | h | h
      · left; simp [charListLe, h]
      · have hab : ¬ a.toNat < b.toNat := by omega
        have hba : ¬ b.toNat < a.toNat := by omega
        rcases ih bs with h' | h'
        · left; simp [charListLe, hab, hba, h']
        · right; simp [charListLe, hab, hba, h']
      · right; simp [charListLe, h]

theorem charListLe_trans (as bs cs : List Char) (h1 : charListLe as bs = true)
    (h2 : charListLe bs cs = true) : charListLe as cs = true := by
  induction as generalizing bs cs with
  | nil => rfl
  | cons a as ih =>
    cases bs with
    | nil => simp [charListLe] at h1
    | cons b bs =>
      cases cs with
      | nil => simp [charListLe] at h2
      | cons c cs =>
        simp only [charListLe] at h1 h2 ⊢
        by_cases hab : a.toNat < b.toNat <;> by_cases hbc : b.toNat < c.toNat <;>
          simp [hab, hbc] at h1 h2 ⊢ <;> try omega
        by_cases hac : a.toNat < c.toNat
        · left; exact hac
        · right
          refine ⟨by omega, ?_⟩
          exact ih bs cs h1.2 h2.2

instance : IsTotal String strLeP := ⟨fun a b => charListLe_total a.data b.data⟩

instance : IsTrans String strLeP := ⟨fun a b c => charListLe_trans a.data b.data c.data⟩

/-- Python `sorted` on a list of player ids (stable, ascending). -/
def sortStrings (l : List String) : List String := List.insertionSort strLeP l

/-! ## Association-list helpers (Python `dict` with insertion order) -/

/-- `m.get(k)` on a `dict` modelled as an association list. -/
def alGet {α : Type} (m : List (String × α)) (k : String) : Option α :=
  (m.find? (fun e => e.1 = k)).map (fun e => e.2)

/-- `m.get(k, d)`. -/
def alGetD {α : Type} (m : List (String × α)) (k : String) (d : α) : α :=
  (alGet m k).getD d

/-- `k in m`. -/
def alHas {α : Type} (m : List (String × α)) (k : String) : Bool :=
  (m.find? (fun e => e.1 = k)).isSome

/-- Update the value at an existing key in place (keys are unique in the
Python dicts being modelled). -/
def alUpdate {α : Type} (m : List (String × α)) (k : String) (f : α → α) :
    List (String × α) :=
  m.map (fun e => if e.1 = k then (e.1, f e.2) else e)

/-- `m[k] = v`: overwrite an existing key in place, or append a fresh key at
the end, exactly as Python dict assignment does. -/
def alSet {α : Type} (m : List (String × α)) (k : String) (v : α) :
    List (String × α) :=
  if alHas m k then alUpdate m k (fun _ => v) else m ++ [(k, v)]

/-! ## Static configuration (`engine/config.py`) -/

/-- `GameConfig` from `config.py`, with the same defaults. -/
structure GameConfig where
  num_players : Int := 7
  num_impostors : Int := 2
  max_total_rounds : Int := 60
  kill_cooldown : Int := 6
  discussion_rotations : Int := 3
  message_char_limit : Int := 500
  emergency_meetings_per_player : Int := 1
  sabotage_countdown : Int := 12
  sabotage_cooldown : Int := 8
  sabotage_fix_cost_critical : Int := 4
  sabotage_fix_cost_disruptive : Int := 3
  tasks_per_crewmate : Int := 8
  visual_tasks_per_crewmate : Int := 1
  confirm_ejects : Bool := true
  ghost_tasks_enabled : Bool := true
  agent_timeout_seconds : Int := 30
  memory_sighting_cap : Int := 20
  memory_movement_cap : Int := 15
deriving DecidableEq, Repr

/-- `MAP_ADJACENCY` from `config.py` (the 14-room table shipped with the
engine package). -/
def MAP_ADJACENCY : List (String × List String) :=
  [("Cafeteria", ["Weapons", "MedBay", "Upper Engine", "Admin", "Storage"]),
   ("Weapons", ["Cafeteria", "O2", "Navigation"]),
   ("O2", ["Weapons", "Navigation", "Shields", "Admin"]),
   ("Navigation", ["Weapons", "O2", "Shields"]),
   ("Shields", ["Navigation", "O2", "Communications", "Storage"]),
   ("Communications", ["Shields", "Storage"]),
   ("Storage", ["Cafeteria", "Admin", "Communications", "Shields", "Electrical"]),
   ("Admin", ["Cafeteria", "Storage", "O2"]),
   ("Electrical", ["Storage", "Lower Engine", "Security"]),
   ("Lower Engine", ["Electrical", "Security", "Reactor"]),
   ("Security", ["Upper Engine", "Lower Engine", "Reactor", "Electrical"]),
   ("Reactor", ["Upper Engine", "Lower Engine", "Security"]),
   ("Upper Engine", ["Cafeteria", "MedBay", "Security", "Reactor"]),
   ("MedBay", ["Upper Engine", "Cafeteria"])]

/-- `SABOTAGE_DEFINITIONS` from `config.py`: name ↦ (fix_locations, critical). -/
def SABOTAGE_DEFINITIONS : List (String × (List (String × Int) × Bool)) :=
  [("reactor", ([("Reactor", 4)], true)),
   ("o2", ([("O2", 2), ("Admin", 2)], true)),
   ("lights", ([("Electrical", 3)], false)),
   ("comms", ([("Communications", 3)], false))]

/-! ## Data model (`engine.py`) -/

/-- `Role` enum. -/
inductive Role
  | crewmate
  | impostor
deriving DecidableEq, Repr

/-- `Phase` enum. -/
inductive Phase
  | task
  | discussion
  | voting
  | game_over
deriving DecidableEq, Repr

/-- `SabotageType` enum. -/
inductive SabotageType
  | reactor
  | o2
  | lights
  | comms
deriving DecidableEq, Repr

/-- `SabotageType(...).value`. -/
def SabotageType.value : SabotageType → String
  | .reactor => "reactor"
  | .o2 => "o2"
  | .lights => "lights"
  | .comms => "comms"

/-- `SabotageType(name)` for names drawn from the sabotage catalog. -/
def sabotageTypeOf : String → Option SabotageType
  | "reactor" => some .reactor
  | "o2" => some .o2
  | "lights" => some .lights
  | "comms" => some .comms
  | _ => none

/-- `Player` dataclass. -/
structure Player where
  id : String
  role : Role
  alive : Bool := true
  ejected : Bool := false
  location : String := "Cafeteria"
  emergency_meetings_remaining : Int := 1
  kill_cooldown : Int := 0
  last_action : String := "wait"
deriving DecidableEq, Repr

/-- `Task` dataclass. -/
structure Task where
  task_id : String
  name : String
  location : String
  required : Int
  progress : Int := 0
  visual : Bool := false
deriving DecidableEq, Repr

/-- `Task.completed` property. -/
def Task.completed (t : Task) : Bool := t.progress ≥ t.required

/-- `ActiveSabotage` dataclass; the two room maps are insertion-ordered
dicts. -/
structure ActiveSabotage where
  type : SabotageType
  critical : Bool
  countdown : Option Int
  fix_progress : List (String × Int)
  fix_required : List (String × Int)
deriving DecidableEq, Repr

/-- `ActionResult` dataclass. -/
structure ActionResult where
  action : String
  success : Bool
  reason : Option String := none
deriving DecidableEq, Repr

/-- A body dict `{"player_id": ..., "location": ...}`. -/
structure Body where
  player_id : String
  location : String
deriving DecidableEq, Repr

/-- An entry of `movement_history`. -/
structure MoveRecord where
  round : Int
  location : String
deriving DecidableEq, Repr

/-- An entry of `sighting_history`. -/
structure Sighting where
  round : Int
  player : String
  location : String
  action : String
deriving DecidableEq, Repr

/-- `meeting_context` dict. -/
structure MeetingContext where
  trigger : String
  called_by : String
  body_found : Option String
  body_location : Option String
deriving DecidableEq, Repr

/-- An agent-submitted action object: either a malformed value (not a dict,
or a dict without an `action` key) or a tagged record with an optional
target. -/
inductive RawAction
  | malformed
  | mk (action : String) (target : Option String)
deriving DecidableEq, Repr

/-- The action label of a validated action (`action.get("action")`). -/
def RawAction.act : RawAction → String
  | .malformed => "wait"
  | .mk a _ => a

/-- The target of an action (`action.get("target")`). -/
def RawAction.tgt : RawAction → Option String
  | .malformed => none
  | .mk _ t => t

/-- An entry of `game_log`: round, validated actions, and per-player
`{"success": ..., "reason": ...}` results. -/
structure RoundLogEntry where
  round : Int
  actions : List (String × RawAction)
  results : List (String × (Bool × Option String))
deriving DecidableEq, Repr

/-- `GameState` dataclass.  `players`, `tasks`, `events`, `action_results`,
`movement_history` and `sighting_history` are insertion-ordered dicts,
modelled as association lists keyed by player id. -/
structure GameState where
  config : GameConfig
  phase : Phase := .task
  round_number : Int := 0
  winner : Option String := none
  win_cause : Option String := none
  players : List Player := []
  tasks : List (String × List Task) := []
  bodies : List Body := []
  sabotage : Option ActiveSabotage := none
  sabotage_cooldown : Int := 0
  meeting_context : Option MeetingContext := none
  chat_history : List String := []
  events : List (String × List String) := []
  admin_table_snapshot : Option (List (String × List (String × Int))) := none
  admin_table_user : Option String := none
  action_results : List (String × ActionResult) := []
  movement_history : List (String × List MoveRecord) := []
  sighting_history : List (String × List Sighting) := []
  meeting_history : List String := []
  game_log : List RoundLogEntry := []
deriving DecidableEq, Repr

/-- `state.players[pid]` (dict lookup; player ids are unique). -/
def GameState.player (s : GameState) (pid : String) : Option Player :=
  s.players.find? (fun p => p.id = pid)

/-- Mutate the player with the given id in place. -/
def updatePlayer (ps : List Player) (pid : String) (f : Player → Player) :
    List Player :=
  ps.map (fun p => if p.id = pid then f p else p)

/-- `self.state.events[pid].append(e)`. -/
def appendEvent (s : GameState) (pid : String) (e : String) : GameState :=
  { s with events := alUpdate s.events pid (fun l => l ++ [e]) }

/-- `hist = m.setdefault(k, []); hist.append(x); if len(hist) > cap:
m[k] = hist[-cap:]` — the bounded ring-buffer push used for movement and
sighting histories (the caps are nonnegative in every configuration). -/
def pushCapped {α : Type} (m : List (String × List α)) (k : String) (x : α)
    (cap : Int) : List (String × List α) :=
  let hist := alGetD m k [] ++ [x]
  let hist := if (hist.length : Int) > cap then hist.drop (hist.length - cap.toNat) else hist
  alSet m k hist

/-- `next((t for t in tasks.get(pid, []) if t.task_id == tid), None)`. -/
def findTask (s : GameState) (pid : String) (tid : Option String) : Option Task :=
  match tid with
  | none => none
  | some t => (alGetD s.tasks pid []).find? (fun tk => tk.task_id = t)

/-- `target in MAP_ADJACENCY.get(loc, [])`. -/
def adjacentTo (loc : String) (target : Option String) : Bool :=
  match target with
  | none => false
  | some t => (alGetD MAP_ADJACENCY loc []).contains t

/-- `ActionResolver._validate` (engine.py lines 595-675), translated
branch for branch. -/
def validate (s : GameState) (player_id : String) (a : RawAction) : ActionResult :=
  match a with
  | .malformed => ⟨"wait", false, some "Malformed action"⟩
  | .mk act target =>
    match s.player player_id with
    | none => ⟨act, false, some "Player not found"⟩
    | some p =>
      if act = "wait" then ⟨act, true, none⟩
      else if ¬ p.alive then
        if act = "move" then
          if adjacentTo p.location target then ⟨act, true, none⟩
          else ⟨act, false, some "Invalid move target"⟩
        else if act = "do_task" ∧ p.role = .crewmate ∧ s.config.ghost_tasks_enabled then
          match findTask s player_id target with
          | some task =>
            if ¬ task.completed ∧ task.location = p.location then ⟨act, true, none⟩
            else ⟨act, false, some "Invalid task or location"⟩
          | none => ⟨act, false, some "Invalid task or location"⟩
        else ⟨act, false, some "Ghosts can only move or do tasks"⟩
      else if act = "move" then
        if adjacentTo p.location target then ⟨act, true, none⟩
        else ⟨act, false, some "Invalid move target"⟩
      else if act = "do_task" then
        if p.role ≠ .crewmate then ⟨act, false, some "Only crewmates do tasks"⟩
        else
          match findTask s player_id target with
          | none => ⟨act, false, some "Task not found"⟩
          | some task =>
            if task.completed then ⟨act, false, some "Task already complete"⟩
            else if task.location ≠ p.location then ⟨act, false, some "Wrong room for task"⟩
            else ⟨act, true, none⟩
      else if act = "fake_task" then
        if p.role ≠ .impostor then ⟨act, false, some "Only impostors can fake tasks"⟩
        else ⟨act, true, none⟩
      else if act = "kill" then
        if p.role ≠ .impostor then ⟨act, false, some "Only impostors can kill"⟩
        else if p.kill_cooldown > 0 then ⟨act, false, some "Kill cooldown active"⟩
        else
          match target.bind (fun tid => s.player tid) with
          | none => ⟨act, false, some "Invalid target"⟩
          | some tgt =>
            if ¬ tgt.alive then ⟨act, false, some "Invalid target"⟩
            else if tgt.role = .impostor then ⟨act, false, some "Cannot kill teammate"⟩
            else ⟨act, true, none⟩
      else if act = "report" then
        if s.bodies.any (fun b => b.location = p.location) then ⟨act, true, none⟩
        else ⟨act, false, some "No body to report"⟩
      else if act = "call_emergency" then
        if p.location ≠ "Cafeteria" then ⟨act, false, some "Must be in Cafeteria"⟩
        else if p.emergency_meetings_remaining ≤ 0 then ⟨act, false, some "No meetings left"⟩
        else if (s.sabotage.map (fun sab => sab.critical)).getD false then
          ⟨act, false, some "Critical sabotage active"⟩
        else ⟨act, true, none⟩
      else if act = "sabotage" then
        if p.role ≠ .impostor then ⟨act, false, some "Only impostors can sabotage"⟩
        else if s.sabotage.isSome then ⟨act, false, some "Sabotage already active"⟩
        else if s.sabotage_cooldown > 0 then ⟨act, false, some "Sabotage cooldown active"⟩
        else if (match target with
                 | some t => alHas SABOTAGE_DEFINITIONS t
                 | none => false) = false then ⟨act, false, some "Invalid sabotage"⟩
        else ⟨act, true, none⟩
      else if act = "fix_sabotage" then
        match s.sabotage with
        | none => ⟨act, false, some "No active sabotage"⟩
        | some sab =>
          if ¬ alHas sab.fix_required p.location then ⟨act, false, some "Wrong room to fix"⟩
          else ⟨act, true, none⟩
      else if act = "use_admin" then
        if p.location ≠ "Admin" then ⟨act, false, some "Must be in Admin"⟩
        else ⟨act, true, none⟩
      else ⟨act, false, some "Unknown action"⟩

/-! ## Observation generation (`ObservationGenerator`) -/

/-- Whether a `lights` sabotage currently blinds the given role: the
condition `state.sabotage and state.sabotage.type == LIGHTS and
role == CREWMATE` used throughout the resolver and observation code. -/
def blindedBy (sab : Option ActiveSabotage) (r : Role) : Bool :=
  match sab with
  | some a => a.type = .lights ∧ r = .crewmate
  | none => false

/-- The room-observation component of
`ObservationGenerator.generate_task_observation` (engine.py lines 127-136):
the `players_present` entries (id paired with last_action) and the
`bodies_present` list. -/
def roomObservations (s : GameState) (player_id : String) (p : Player) :
    List (String × String) × List String :=
  if blindedBy s.sabotage p.role then ([], [])
  else
    (((s.players.filter (fun q =>
        q.id ≠ player_id ∧ q.alive ∧ q.location = p.location)).map
          (fun q => (q.id, q.last_action))),
     (s.bodies.filter (fun b => b.location = p.location)).map (fun b => b.player_id))

/-! ## The round resolver (`ActionResolver.resolve_round`), step by step -/

/-- Step 0: clear transient state, bump the round counter. -/
def step0 (s : GameState) : GameState :=
  { s with events := s.players.map (fun p => (p.id, [])),
           admin_table_snapshot := none,
           admin_table_user := none,
           round_number := s.round_number + 1,
           action_results := [] }

/-- Step 1: decrement kill cooldowns of impostors and the sabotage
cooldown, floored at zero. -/
def step1 (s : GameState) : GameState :=
  { s with players := s.players.map (fun p =>
      if p.role = .impostor then { p with kill_cooldown := max 0 (p.kill_cooldown - 1) } else p),
           sabotage_cooldown := max 0 (s.sabotage_cooldown - 1) }

/-- Step 2: tick the countdown of an active critical sabotage; on expiry
set the impostor win and signal the early return (`true`). -/
def step2 (s : GameState) : GameState × Bool :=
  match s.sabotage with
  | some sab =>
    if sab.critical then
      match sab.countdown with
      | some c =>
        if c - 1 ≤ 0 then
          ({ s with sabotage := some { sab with countdown := some (c - 1) },
                    winner := some "impostors",
                    win_cause := some ("sabotage_" ++ sab.type.value),
                    phase := .game_over }, true)
        else ({ s with sabotage := some { sab with countdown := some (c - 1) } }, false)
      | none => (s, false)
    else (s, false)
  | none => (s, false)

/-- One action of the validation loop of step 3: record the result and keep
the action when valid, else replace it by `wait`. -/
def validateStep (s : GameState)
    (acc : List (String × ActionResult) × List (String × RawAction))
    (pa : String × RawAction) :
    List (String × ActionResult) × List (String × RawAction) :=
  (acc.1 ++ [(pa.1, validate s pa.1 pa.2)],
   acc.2 ++ [(pa.1, if (validate s pa.1 pa.2).success then pa.2
                    else RawAction.mk "wait" none)])

/-- The defaulting loop of step 3: any player without a validated entry gets
a successful `wait`. -/
def fillWaitStep (acc : List (String × ActionResult) × List (String × RawAction))
    (p : Player) : List (String × ActionResult) × List (String × RawAction) :=
  if alHas acc.2 p.id then acc
  else (acc.1 ++ [(p.id, ⟨"wait", true, none⟩)],
        acc.2 ++ [(p.id, RawAction.mk "wait" none)])

/-- Step 3: validate every submitted action (failures are replaced by
`wait`), then default every remaining player to a successful `wait`.
Returns the `action_results` dict and the `validated_actions` dict. -/
def validateAll (s : GameState) (actions : List (String × RawAction)) :
    List (String × ActionResult) × List (String × RawAction) :=
  s.players.foldl fillWaitStep (actions.foldl (validateStep s) ([], []))

/-- The `moves` list of step 4: `(pid, origin, target)` for every validated
`move`, with origins read before any location changes. -/
def movesOf (s : GameState) (va : List (String × RawAction)) :
    List (String × String × String) :=
  (va.filter (fun pa => pa.2.act = "move")).map
    (fun pa => (pa.1, ((s.player pa.1).map (fun p => p.location)).getD "",
                pa.2.tgt.getD ""))

/-- Relocate one mover and emit left/arrived events to stationary, living
observers. -/
def applyOneMove (moverIds : List String) (st : GameState)
    (m : String × String × String) : GameState :=
  let pid := m.1
  let origin := m.2.1
  let target := m.2.2
  let ps := updatePlayer st.players pid (fun p => { p with location := target })
  let st := { st with players := ps }
  st.players.foldl
    (fun st2 op =>
      if op.id ≠ pid ∧ op.alive then
        if op.location = origin ∧ ¬ moverIds.contains op.id then
          appendEvent st2 op.id s!"{pid} left toward {target}"
        else if op.location = target ∧ ¬ moverIds.contains op.id then
          appendEvent st2 op.id s!"{pid} arrived from {origin}"
        else st2
      else st2) st

/-- One pairwise comparison of the "passed" loop of step 4: movers whose
origins and targets are mirrored both receive a passing event. -/
def passPairEvents (m1 : String × String × String) (st2 : GameState)
    (m2 : String × String × String) : GameState :=
  if m1.2.1 = m2.2.2 ∧ m1.2.2 = m2.2.1 then
    appendEvent (appendEvent st2 m1.1
      s!"You passed {m2.1} between {m1.2.1} and {m1.2.2}") m2.1
      s!"You passed {m1.1} between {m2.2.1} and {m2.2.2}"
  else st2

/-- Append a mover's new location to their movement history (trimmed). -/
def pushMoveHistory (cap : Int) (st : GameState)
    (m1 : String × String × String) : GameState :=
  { st with movement_history :=
      pushCapped st.movement_history m1.1 ⟨st.round_number, m1.2.2⟩ cap }

/-- The pairwise "passed" events and the movement-history pushes of
step 4, processed in list order like the Python `enumerate` loop. -/
def passAndHistory (cap : Int) : GameState → List (String × String × String) →
    GameState
  | st, [] => st
  | st, m1 :: rest =>
    passAndHistory cap (pushMoveHistory cap (rest.foldl (passPairEvents m1) st) m1) rest

/-- Step 4: resolve movement. -/
def resolveMovement (s : GameState) (va : List (String × RawAction)) : GameState :=
  let moves := movesOf s va
  let moverIds := moves.map (fun m => m.1)
  let s := moves.foldl
    (fun st m =>
      let ps := updatePlayer st.players m.1 (fun p => { p with last_action := "moving" })
      { st with players := ps }) s
  let s := moves.foldl (applyOneMove moverIds) s
  passAndHistory s.config.memory_movement_cap s moves

/-- The sorted list of killer ids of step 5. -/
def killerIds (va : List (String × RawAction)) : List String :=
  sortStrings ((va.filter (fun pa => pa.2.act = "kill")).map (fun pa => pa.1))

/-- The witness loop of a successful kill: every living, co-located,
unblinded player other than the killer and the victim receives the
`"<victim> was killed!"` event. -/
def notifyKillWitnesses (killerLoc killerId targetId tid : String)
    (s : GameState) : GameState :=
  s.players.foldl
    (fun st w =>
      if w.alive ∧ w.location = killerLoc ∧ ¬ blindedBy st.sabotage w.role ∧
          w.id ≠ killerId ∧ w.id ≠ targetId then
        appendEvent st w.id s!"{tid} was killed!"
      else st) s

/-- One kill of step 5: succeed iff the target is currently alive and
co-located with the killer; on success mark the victim dead, append a body,
reset the killer's cooldown and notify unblinded co-located witnesses; on
failure record a failed result with a reason. -/
def killStep (va : List (String × RawAction)) (s : GameState) (pid : String) :
    GameState :=
  match s.player pid with
  | none => s
  | some killer =>
    let target_id : Option String := (alGet va pid).bind (fun a => a.tgt)
    match target_id.bind (fun tid => s.player tid) with
    | some target =>
      if target.alive ∧ target.location = killer.location then
        let tid := target_id.getD ""
        let ps := updatePlayer s.players target.id (fun q => { q with alive := false })
        let s := { s with players := ps }
        let s := { s with bodies := s.bodies ++ [Body.mk tid target.location] }
        let ps2 := updatePlayer s.players pid
          (fun q => { q with kill_cooldown := s.config.kill_cooldown })
        let s := { s with players := ps2 }
        let ar := alUpdate s.action_results pid (fun r => { r with success := true })
        let s := { s with action_results := ar }
        notifyKillWitnesses killer.location killer.id target.id tid s
      else
        let tidStr := target_id.getD "None"
        let ar := alUpdate s.action_results pid (fun r => { r with success := false, reason := some s!"Target {tidStr} is not in your room after movement resolved or is dead." })
        { s with action_results := ar }
    | none =>
      let tidStr := target_id.getD "None"
      let ar := alUpdate s.action_results pid (fun r => { r with success := false, reason := some s!"Target {tidStr} is not in your room after movement resolved or is dead." })
      { s with action_results := ar }

/-- Step 5: resolve kills in lexicographic order of killer id. -/
def resolveKills (s : GameState) (va : List (String × RawAction)) : GameState :=
  (killerIds va).foldl (killStep va) s

/-- Number of living crewmates. -/
def livingCrew (s : GameState) : Nat :=
  s.players.countP (fun p => p.role = .crewmate ∧ p.alive)

/-- Number of living impostors. -/
def livingImp (s : GameState) : Nat :=
  s.players.countP (fun p => p.role = .impostor ∧ p.alive)

/-- The pair (Σ required, Σ min(progress, required)) over crewmates' tasks,
the integers behind `global task progress`. -/
def taskTotals (s : GameState) : Int × Int :=
  s.players.foldl
    (fun acc p =>
      if p.role = .crewmate then
        (alGetD s.tasks p.id []).foldl
          (fun a t => (a.1 + t.required, a.2 + min t.progress t.required)) acc
      else acc)
    (0, 0)

/-- Whether an active critical sabotage has a countdown that has reached
zero (win condition 3). -/
def criticalExpired (sab? : Option ActiveSabotage) : Bool :=
  match sab? with
  | some sab =>
    sab.critical && (match sab.countdown with
                     | some c => decide (c ≤ 0)
                     | none => false)
  | none => false

/-- `ActionResolver._check_win_condition` (engine.py lines 677-722): the
five win conditions in order; a winner already set short-circuits.  The
returned state has a winner exactly when the Python method returns `True`. -/
def checkWin (s : GameState) : GameState :=
  if s.winner.isSome then s
  else if livingImp s = 0 then
    { s with winner := some "crewmates", win_cause := some "all_impostors_eliminated",
             phase := .game_over }
  else if livingImp s ≥ livingCrew s then
    { s with winner := some "impostors", win_cause := some "impostors_majority",
             phase := .game_over }
  else if criticalExpired s.sabotage then
    { s with winner := some "impostors",
             win_cause := s.sabotage.map (fun sab => "sabotage_" ++ sab.type.value),
             phase := .game_over }
  else if (taskTotals s).1 > 0 ∧ (taskTotals s).2 ≥ (taskTotals s).1 then
    { s with winner := some "crewmates", win_cause := some "all_tasks_completed",
             phase := .game_over }
  else if s.round_number ≥ s.config.max_total_rounds then
    { s with winner := some "crewmates", win_cause := some "timeout",
             phase := .game_over }
  else s

/-- Increment the progress of the first task with the given id (the object
found by the `next(...)` scan is mutated in place). -/
def bumpFirstTask : List Task → String → List Task
  | [], _ => []
  | t :: ts, tid =>
    if t.task_id = tid then { t with progress := t.progress + 1 } :: ts
    else t :: bumpFirstTask ts tid

/-- One `do_task`/`fake_task` of step 6. -/
def taskStep (s : GameState) (pid : String) (a : RawAction) : GameState :=
  if a.act = "do_task" then
    match s.player pid with
    | none => s
    | some p =>
      match findTask s pid a.tgt with
      | none => s
      | some task =>
        let tk := alUpdate s.tasks pid (fun l => bumpFirstTask l task.task_id)
        let s := { s with tasks := tk }
        let ps := updatePlayer s.players pid (fun q => { q with last_action := "doing_task" })
        let s := { s with players := ps }
        if Task.completed { task with progress := task.progress + 1 } ∧ task.visual then
          s.players.foldl
            (fun st w =>
              if w.alive ∧ w.location = p.location ∧ ¬ blindedBy st.sabotage w.role ∧
                  w.id ≠ p.id then
                appendEvent st w.id
                  s!"{pid} completed visual task {task.name} in {p.location}"
              else st) s
        else s
  else if a.act = "fake_task" then
    let ps := updatePlayer s.players pid (fun q => { q with last_action := "doing_task" })
    { s with players := ps }
  else s

/-- Step 6: resolve tasks in validated-action order. -/
def resolveTasks (s : GameState) (va : List (String × RawAction)) : GameState :=
  va.foldl (fun st pa => taskStep st pa.1 pa.2) s

/-- The sorted reporter ids of step 7. -/
def reportersOf (va : List (String × RawAction)) : List String :=
  sortStrings ((va.filter (fun pa => pa.2.act = "report")).map (fun pa => pa.1))

/-- The sorted emergency-caller ids of step 7. -/
def emergenciesOf (va : List (String × RawAction)) : List String :=
  sortStrings ((va.filter (fun pa => pa.2.act = "call_emergency")).map (fun pa => pa.1))

/-- The failed result recorded for a superseded reporter or emergency
caller. -/
def supersededMark (r : ActionResult) : ActionResult :=
  { r with success := false,
           reason := some "Meeting was triggered by another player this round." }

/-- Mark every superseded reporter and emergency caller (everyone in the
list other than the winning caller) as failed. -/
def failSuperseded (caller : String) (m : List (String × ActionResult))
    (others : List String) : List (String × ActionResult) :=
  others.foldl
    (fun acc other => if other ≠ caller then alUpdate acc other supersededMark else acc) m

/-- Install the chosen meeting: record the context, move to DISCUSSION, and
fail every superseded reporter and emergency caller. -/
def installMeeting (s : GameState) (trigger caller : String)
    (body_found : Option Body) (reports emergencies : List String) : GameState :=
  { s with
    meeting_context := some ⟨trigger, caller, body_found.map (fun b => b.player_id),
                             body_found.map (fun b => b.location)⟩,
    phase := .discussion,
    action_results := failSuperseded caller s.action_results (reports ++ emergencies) }

/-- Step 7: resolve reports and emergency meetings.  Returns `true` when a
meeting was installed (the resolver then stops). -/
def resolveMeetings (s : GameState) (va : List (String × RawAction)) :
    GameState × Bool :=
  let reports := reportersOf va
  let emergencies := emergenciesOf va
  match reports with
  | caller :: _ =>
    let room := ((s.player caller).map (fun p => p.location)).getD ""
    let body_found := s.bodies.find? (fun b => b.location = room)
    (installMeeting s "body_report" caller body_found reports emergencies, true)
  | [] =>
    match emergencies with
    | caller :: _ =>
      let ps := updatePlayer s.players caller (fun p =>
        { p with emergency_meetings_remaining := p.emergency_meetings_remaining - 1 })
      let s := { s with players := ps }
      (installMeeting s "emergency_meeting" caller none reports emergencies, true)
    | [] => (s, false)

/-- Step 8: install a new sabotage for the earliest-id valid saboteur when
none is active. -/
def resolveSabotageTrigger (s : GameState) (va : List (String × RawAction)) :
    GameState :=
  let sabotages := sortStrings
    ((va.filter (fun pa => pa.2.act = "sabotage")).map (fun pa => pa.1))
  match sabotages, s.sabotage with
  | pid :: _, none =>
    match (alGet va pid).bind (fun a => a.tgt) with
    | some nm =>
      match alGet SABOTAGE_DEFINITIONS nm, sabotageTypeOf nm with
      | some sdef, some ty =>
        let sab : ActiveSabotage :=
          ⟨ty, sdef.2, if sdef.2 then some s.config.sabotage_countdown else none,
           sdef.1.map (fun e => (e.1, 0)), sdef.1⟩
        { s with sabotage := some sab }
      | _, _ => s
    | none => s
  | _, _ => s

/-- One `fix_sabotage` of step 9: mark the fixer as fixing, then bump the
fix progress of their room (no cap) when that room is a fix location. -/
def applyFix (s : GameState) (pid : String) : GameState :=
  match s.player pid with
  | none => s
  | some p =>
    let ps := updatePlayer s.players pid (fun q => { q with last_action := "fixing" })
    let s := { s with players := ps }
    match s.sabotage with
    | some sab =>
      if alHas sab.fix_progress p.location then
        let fp := alUpdate sab.fix_progress p.location (fun v => v + 1)
        { s with sabotage := some { sab with fix_progress := fp } }
      else s
    | none => s

/-- The end of step 9: clear the sabotage and start the cooldown when every
fix location has reached its requirement. -/
def clearIfFixed (s : GameState) : GameState :=
  match s.sabotage with
  | some sab =>
    if sab.fix_required.all (fun e => alGetD sab.fix_progress e.1 0 ≥ e.2) then
      { s with sabotage := none, sabotage_cooldown := s.config.sabotage_cooldown }
    else s
  | none => s

/-- Step 9: resolve fix actions. -/
def resolveFixes (s : GameState) (va : List (String × RawAction)) : GameState :=
  clearIfFixed (va.foldl
    (fun st pa => if pa.2.act = "fix_sabotage" then applyFix st pa.1 else st) s)

/-- Step 10: snapshot the per-room living-player counts for every
`use_admin` caller. -/
def resolveAdmin (s : GameState) (va : List (String × RawAction)) : GameState :=
  let admin_users := (va.filter (fun pa => pa.2.act = "use_admin")).map (fun pa => pa.1)
  if admin_users.isEmpty then s
  else
    let counts0 := MAP_ADJACENCY.map (fun e => (e.1, (0 : Int)))
    let counts := s.players.foldl
      (fun c p => if p.alive then alSet c p.location (alGetD c p.location 0 + 1) else c)
      counts0
    admin_users.foldl
      (fun st pid =>
        let ps := updatePlayer st.players pid (fun q => { q with last_action := "admin" })
        let st := { st with players := ps }
        let snap := alSet (st.admin_table_snapshot.getD []) pid counts
        { st with admin_table_snapshot := some snap }) s

/-- Step 11: players whose validated label was `wait`, `report`,
`call_emergency` or `sabotage` get `last_action = "idle"`. -/
def fillLastAction (s : GameState) (va : List (String × RawAction)) : GameState :=
  va.foldl
    (fun st pa =>
      if pa.2.act = "wait" ∨ pa.2.act = "report" ∨ pa.2.act = "call_emergency" ∨
          pa.2.act = "sabotage" then
        let ps := updatePlayer st.players pa.1 (fun q => { q with last_action := "idle" })
        { st with players := ps }
      else st) s

/-- `hist.append(sighting)` with the sighting cap. -/
def pushSighting (s : GameState) (pid : String) (x : Sighting) : GameState :=
  { s with sighting_history :=
      pushCapped s.sighting_history pid x s.config.memory_sighting_cap }

/-- Step 12: every alive, unblinded player records a sighting of every
other co-located alive player. -/
def updateSightings (s : GameState) : GameState :=
  s.players.foldl
    (fun st p =>
      if ¬ p.alive then st
      else if blindedBy st.sabotage p.role then st
      else st.players.foldl
        (fun st2 op =>
          if op.id ≠ p.id ∧ op.alive ∧ op.location = p.location then
            pushSighting st2 p.id ⟨st2.round_number, op.id, p.location, op.last_action⟩
          else st2) st) s

/-- Step 13: append the round log entry. -/
def logRound (s : GameState) (va : List (String × RawAction)) : GameState :=
  { s with game_log := s.game_log ++
      [⟨s.round_number, va,
        s.action_results.map (fun e => (e.1, (e.2.success, e.2.reason)))⟩] }

/-- Steps 8-13 of the resolver, reached only when no meeting fired. -/
def resolveRoundTail (s7 : GameState) (va : List (String × RawAction)) : GameState :=
  checkWin (logRound (updateSightings (fillLastAction
    (resolveAdmin (resolveFixes (resolveSabotageTrigger s7 va) va) va) va)) va)

/-- Steps 3-13 of the resolver (after the countdown tick of step 2 did not
end the game): validation, movement, kills with win-check, tasks with
win-check, meetings with the step-7 early return, then the tail. -/
def resolveRoundAfter2 (s2 : GameState) (actions : List (String × RawAction)) :
    GameState :=
  match validateAll s2 actions with
  | (results, va) =>
    let s3 : GameState := { s2 with action_results := results }
    let s5 := checkWin (resolveKills (resolveMovement s3 va) va)
    if s5.winner.isSome then s5
    else
      let s6 := checkWin (resolveTasks s5 va)
      if s6.winner.isSome then s6
      else
        match resolveMeetings s6 va with
        | (s7, true) => s7
        | (s7, false) => resolveRoundTail s7 va

/-- `ActionResolver.resolve_round` (engine.py lines 367-593): the thirteen
steps with the three early returns (countdown expiry in step 2, the
win-checks after kills and after tasks, and the meeting return of step 7). -/
def resolveRound (s : GameState) (actions : List (String × RawAction)) : GameState :=
  match step2 (step1 (step0 s)) with
  | (s2, true) => s2
  | (s2, false) => resolveRoundAfter2 s2 actions

/-! ## Tournament scheduler (`engine/tournament.py`,
`TournamentRunner.generate_balanced_matchups`) -/

/-- The built-in deterministic fallback bot used to fill empty seats. -/
def FALLBACK : String := "__RuleBasedBot__"

/-- `⌈a / b⌉` on naturals: the exact value of `math.ceil` applied to the
ratio `a / b`. -/
def ceilDiv (a b : Nat) : Nat := (a + b - 1) / b

/-- `imp_per_team = ceil(games_per_team * num_impostors / num_players)`. -/
def impPerTeam (G ni np : Nat) : Nat := ceilDiv (G * ni) np

/-- `crew_per_team = games_per_team - imp_per_team`. -/
def crewPerTeam (G ni np : Nat) : Nat := G - impPerTeam G ni np

/-- `teams * k` in Python: the whole team list repeated `k` times — the
role multiset with `k` copies of each team before shuffling. -/
def repeatTeams (teams : List String) (k : Nat) : List String :=
  (List.replicate k teams).flatten

/-- Fill `n` seats from a role queue, padding with the fallback bot when
the queue runs out. -/
def fillSeats (n : Nat) (q : List String) : List String :=
  q.take n ++ List.replicate (n - q.length) FALLBACK

/-- The `while role_queues[IMPOSTOR] or role_queues[CREWMATE]` dealing loop:
each iteration seats `ni` impostors then `nc` crewmates.  The loop consumes
at least one queue element per iteration whenever `1 ≤ ni` and `1 ≤ nc`
(every valid config has both), so the fuel `impQ.length + crewQ.length`
supplied by `generate_balanced_matchups` is never exhausted early. -/
def dealLobbies (ni nc : Nat) : Nat → List String → List String →
    List (List (String × Role))
  | 0, _, _ => []
  | n + 1, impQ, crewQ =>
    if impQ.isEmpty ∧ crewQ.isEmpty then []
    else
      let lobby := (fillSeats ni impQ).map (fun t => (t, Role.impostor)) ++
        (fillSeats nc crewQ).map (fun t => (t, Role.crewmate))
      lobby :: dealLobbies ni nc n (impQ.drop ni) (crewQ.drop nc)

/-- `generate_balanced_matchups`, parameterized by the two shuffled role
queues (`random.shuffle` produces an arbitrary permutation of
`teams * imp_per_team` resp. `teams * crew_per_team`; theorems quantify
over those permutations). -/
def generate_balanced_matchups (ni np : Nat) (impQ crewQ : List String) :
    List (List (String × Role)) :=
  dealLobbies ni (np - ni) (impQ.length + crewQ.length) impQ crewQ

/-- How many seats of the given role a team occupies across a schedule. -/
def seatCount (lobbies : List (List (String × Role))) (t : String) (r : Role) :
    Nat :=
  (lobbies.flatten.filter (fun seat => seat.1 = t ∧ seat.2 = r)).length

/-! ## General helper lemmas -/

/-- A left fold of per-element state transformers that all preserve a
projection preserves that projection. -/
theorem foldl_preserves {α β : Type} (f : GameState → β) (g : GameState → α → GameState)
    (hg : ∀ st a, f (g st a) = f st) (l : List α) (s : GameState) :
    f (l.foldl g s) = f s := by
  induction l generalizing s with
  | nil => rfl
  | cons a l ih => rw [List.foldl_cons, ih, hg]

/-- Peeling one entry off an association-list lookup. -/
theorem alGet_cons {α : Type} (e : String × α) (m : List (String × α)) (k : String) :
    alGet (e :: m) k = if e.1 = k then some e.2 else alGet m k := by
  simp only [alGet, List.find?_cons]
  by_cases h : e.1 = k <;> simp [h]

/-- Looking a key up after an in-place update. -/
theorem alGet_alUpdate {α : Type} (m : List (String × α)) (k k2 : String) (f : α → α) :
    alGet (alUpdate m k f) k2 =
      if k2 = k then (alGet m k).map f else alGet m k2 := by
  induction m with
  | nil => by_cases h : k2 = k <;> simp [alGet, alUpdate, h]
  | cons e m ih =>
    have hcons : alUpdate (e :: m) k f =
        (if e.1 = k then (e.1, f e.2) else e) :: alUpdate m k f := rfl
    rw [hcons, alGet_cons, alGet_cons, alGet_cons]
    by_cases he : e.1 = k
    · by_cases he2 : e.1 = k2
      · have h : k2 = k := by rw [← he2, he]
        simp [he, he2, h]
      · have h : ¬ k2 = k := by rw [← he]; intro hc; exact he2 hc.symm
        have h2 : ¬ k = k2 := fun hc => h hc.symm
        simp [he, he2, h, h2, ih]
    · by_cases he2 : e.1 = k2
      · have h : ¬ k2 = k := fun hc => he (he2.trans hc)
        simp [he, he2, h]
      · simp [he, he2, ih]

/-- Peeling one player off a roster lookup. -/
theorem findPlayer_cons (p : Player) (ps : List Player) (q : String) :
    (p :: ps).find? (fun r => r.id = q) =
      if p.id = q then some p else ps.find? (fun r => r.id = q) := by
  simp only [List.find?_cons]
  by_cases h : p.id = q <;> simp [h]

/-- Looking a player up after an in-place update that preserves ids. -/
theorem player_updatePlayer (ps : List Player) (pid q : String) (f : Player → Player)
    (hf : ∀ p, (f p).id = p.id) :
    (updatePlayer ps pid f).find? (fun p => p.id = q) =
      if q = pid then (ps.find? (fun p => p.id = q)).map f
      else ps.find? (fun p => p.id = q) := by
  induction ps with
  | nil => by_cases h : q = pid <;> simp [updatePlayer, h]
  | cons p ps ih =>
    have hcons : updatePlayer (p :: ps) pid f =
        (if p.id = pid then f p else p) :: updatePlayer ps pid f := rfl
    rw [hcons, findPlayer_cons, findPlayer_cons]
    by_cases hp : p.id = pid
    · have hid : (if p.id = pid then f p else p).id = p.id := by simp [hp, hf]
      rw [hid]
      by_cases hq : p.id = q
      · have h : q = pid := by rw [← hq, hp]
        simp [hp, hq, h]
      · by_cases h : q = pid
        · have : p.id = q := by rw [hp, h]
          exact absurd this hq
        · have h2 : ¬ pid = q := fun hc => h hc.symm
          simp [hp, hq, h, h2, ih]
    · have hid : (if p.id = pid then f p else p).id = p.id := by simp [hp]
      rw [hid]
      by_cases hq : p.id = q
      · by_cases h : q = pid
        · rw [h] at hq
          exact absurd hq hp
        · simp [hp, hq, h]
      · simp [hp, hq, ih]

/-! ## Claim C4: order and content of the win conditions -/

/-- C4.  The win-check evaluates its conditions in the specified order with
the specified winners and causes: zero living impostors gives crewmates the
win with cause `all_impostors_eliminated`; otherwise living impostors ≥
living crewmates gives impostors the win with cause `impostors_majority`;
otherwise an expired critical sabotage gives impostors a `sabotage_<type>`
win; otherwise global task progress ≥ 1.0 (the crewmate task sums satisfy
`done ≥ total` with `total > 0`) gives crewmates `all_tasks_completed`;
otherwise `round_number ≥ max_total_rounds` gives crewmates the win with
cause `timeout`; otherwise nothing changes; and whenever a winner is set,
the phase becomes GAME_OVER. -/
theorem C4_win_check_order (s : GameState) (h : s.winner = none) :
    (livingImp s = 0 →
      (checkWin s).winner = some "crewmates" ∧
      (checkWin s).win_cause = some "all_impostors_eliminated" ∧
      (checkWin s).phase = .game_over) ∧
    (livingImp s ≠ 0 → livingImp s ≥ livingCrew s →
      (checkWin s).winner = some "impostors" ∧
      (checkWin s).win_cause = some "impostors_majority" ∧
      (checkWin s).phase = .game_over) ∧
    (livingImp s ≠ 0 → livingImp s < livingCrew s → criticalExpired s.sabotage = true →
      (checkWin s).winner = some "impostors" ∧
      (∀ sab, s.sabotage = some sab →
        (checkWin s).win_cause = some ("sabotage_" ++ sab.type.value)) ∧
      (checkWin s).phase = .game_over) ∧
    (livingImp s ≠ 0 → livingImp s < livingCrew s → criticalExpired s.sabotage = false →
      (taskTotals s).1 > 0 → (taskTotals s).2 ≥ (taskTotals s).1 →
      (checkWin s).winner = some "crewmates" ∧
      (checkWin s).win_cause = some "all_tasks_completed" ∧
      (checkWin s).phase = .game_over) ∧
    (livingImp s ≠ 0 → livingImp s < livingCrew s → criticalExpired s.sabotage = false →
      ¬ ((taskTotals s).1 > 0 ∧ (taskTotals s).2 ≥ (taskTotals s).1) →
      s.round_number ≥ s.config.max_total_rounds →
      (checkWin s).winner = some "crewmates" ∧
      (checkWin s).win_cause = some "timeout" ∧
      (checkWin s).phase = .game_over) ∧
    (livingImp s ≠ 0 → livingImp s < livingCrew s → criticalExpired s.sabotage = false →
      ¬ ((taskTotals s).1 > 0 ∧ (taskTotals s).2 ≥ (taskTotals s).1) →
      s.round_number < s.config.max_total_rounds →
      checkWin s = s) ∧
    ((checkWin s).winner.isSome → (checkWin s).phase = .game_over) := by
  have hW : s.winner.isSome = false := by simp [h]
  refine ⟨?_, ?_, ?_, ?_, ?_, ?_, ?_⟩
  · intro h0
    simp [checkWin, hW, h0]
  · intro h0 h1
    simp [checkWin, hW, h0, h1]
  · intro h0 h1 h2
    have h1' : ¬ livingImp s ≥ livingCrew s := by omega
    refine ⟨?_, ?_, ?_⟩
    · simp [checkWin, hW, h0, h1', h2]
    · intro sab hsab
      rw [hsab] at h2
      simp [checkWin, hW, h0, h1', hsab, h2]
    · simp [checkWin, hW, h0, h1', h2]
  · intro h0 h1 h2 h3 h4
    have h1' : ¬ livingImp s ≥ livingCrew s := by omega
    simp [checkWin, hW, h0, h1', h2, h3, h4]
  · intro h0 h1 h2 h3 h4
    have h1' : ¬ livingImp s ≥ livingCrew s := by omega
    simp [checkWin, hW, h0, h1', h2, h3, h4]
  · intro h0 h1 h2 h3 h4
    have h1' : ¬ livingImp s ≥ livingCrew s := by omega
    have h4' : ¬ s.round_number ≥ s.config.max_total_rounds := by omega
    simp [checkWin, hW, h0, h1', h2, h3, h4']
  · intro hsome
    by_cases h0 : livingImp s = 0
    · simp [checkWin, hW, h0]
    by_cases h1 : livingImp s ≥ livingCrew s
    · simp [checkWin, hW, h0, h1]
    by_cases h2 : criticalExpired s.sabotage = true
    · simp [checkWin, hW, h0, h1, h2]
    rw [Bool.not_eq_true] at h2
    by_cases h3 : (taskTotals s).1 > 0 ∧ (taskTotals s).2 ≥ (taskTotals s).1
    · simp [checkWin, hW, h0, h1, h2, h3]
    by_cases h4 : s.round_number ≥ s.config.max_total_rounds
    · simp [checkWin, hW, h0, h1, h2, h3, h4]
    · exfalso
      have : checkWin s = s := by simp [checkWin, hW, h0, h1, h2, h3, h4]
      rw [this, h] at hsome
      simp at hsome

/-- Witness for `C4_win_check_order`: a concrete three-player state with no
living impostors where the first condition fires. -/
theorem C4_win_check_order_witness :
    (checkWin { config := {}, players :=
        [{ id := "p1", role := .crewmate },
         { id := "p2", role := .impostor, alive := false },
         { id := "p3", role := .crewmate }] } : GameState).winner = some "crewmates" :=
  ((C4_win_check_order { config := {}, players :=
        [{ id := "p1", role := .crewmate },
         { id := "p2", role := .impostor, alive := false },
         { id := "p3", role := .crewmate }] } rfl).1 (by decide)).1

/-! ## Claim C10: validation rules for dead players -/

/-- C10.  Ghost semantics at the validation interface: for every dead
player, `wait` always validates successfully; `move` validates successfully
iff the target is adjacent to the ghost's room (the `ghost_tasks_enabled`
flag plays no role — the state, and hence the flag, is universally
quantified); `do_task` validates successfully iff the ghost is a crewmate,
`ghost_tasks_enabled` is true, and the targeted task is owned, incomplete,
and located in the ghost's current room; every other action label from a
dead player fails validation, as does a malformed action. -/
theorem C10_ghost_validation (s : GameState) (pid : String) (p : Player)
    (hp : s.player pid = some p) (hdead : p.alive = false) :
    (∀ t, (validate s pid (RawAction.mk "wait" t)).success = true) ∧
    (∀ t, (validate s pid (RawAction.mk "move" t)).success = true ↔
      adjacentTo p.location t = true) ∧
    (∀ t, (validate s pid (RawAction.mk "do_task" t)).success = true ↔
      (p.role = .crewmate ∧ s.config.ghost_tasks_enabled = true ∧
        ∃ task, findTask s pid t = some task ∧ task.completed = false ∧
          task.location = p.location)) ∧
    (∀ a t, a ≠ "wait" → a ≠ "move" → a ≠ "do_task" →
      (validate s pid (RawAction.mk a t)).success = false) ∧
    (validate s pid RawAction.malformed).success = false := by
  refine ⟨?_, ?_, ?_, ?_, ?_⟩
  · intro t
    simp [validate, hp]
  · intro t
    by_cases hadj : adjacentTo p.location t = true
    · simp [validate, hp, hdead, hadj]
    · simp [validate, hp, hdead, hadj]
  · intro t
    constructor
    · intro hsucc
      by_cases hrole : p.role = .crewmate
      · by_cases hflag : s.config.ghost_tasks_enabled = true
        · refine ⟨hrole, hflag, ?_⟩
          cases hft : findTask s pid t with
          | none => simp [validate, hp, hdead, hrole, hflag, hft] at hsucc
          | some task =>
            refine ⟨task, rfl, ?_⟩
            by_cases hc : task.completed = false
            · by_cases hl : task.location = p.location
              · exact ⟨hc, hl⟩
              · simp [validate, hp, hdead, hrole, hflag, hft, hc, hl] at hsucc
            · rw [Bool.not_eq_false] at hc
              simp [validate, hp, hdead, hrole, hflag, hft, hc] at hsucc
        · rw [Bool.not_eq_true] at hflag
          simp [validate, hp, hdead, hrole, hflag] at hsucc
      · simp [validate, hp, hdead, hrole] at hsucc
    · rintro ⟨hrole, hflag, task, hft, hc, hl⟩
      simp [validate, hp, hdead, hrole, hflag, hft, hc, hl]
  · intro a t ha1 ha2 ha3
    simp [validate, hp, hdead, ha1, ha2, ha3]
  · simp [validate]

/-- Concrete state for the C10 witness: a dead crewmate ghost in the
Cafeteria owning an incomplete task there, next to a living impostor. -/
def ghostState : GameState :=
  { config := {},
    players := [{ id := "g1", role := .crewmate, alive := false },
                { id := "p2", role := .impostor }],
    tasks := [("g1", [⟨"t1", "Upload Data", "Cafeteria", 2, 0, false⟩])] }

/-- Witness for `C10_ghost_validation`: in `ghostState` a `report` from the
ghost fails validation. -/
theorem C10_ghost_validation_witness :
    (validate ghostState "g1" (RawAction.mk "report" none)).success = false :=
  (C10_ghost_validation ghostState "g1"
      { id := "g1", role := .crewmate, alive := false } (by decide)
      rfl).2.2.2.1 "report" none (by decide) (by decide) (by decide)

/-! ## Claim C5: fix-sabotage progress (corrected: the increment is not
capped) -/

/-- Concrete state refuting C5 as stated: an active `o2` sabotage whose O2
room is already fully fixed (2 of 2) while Admin is untouched, with a
crewmate standing in O2. -/
def fixState : GameState :=
  { config := {},
    players := [{ id := "p1", role := .crewmate, location := "O2" },
                { id := "p2", role := .impostor },
                { id := "p3", role := .crewmate }],
    sabotage := some ⟨.o2, true, some 10, [("O2", 2), ("Admin", 0)], [("O2", 2), ("Admin", 2)]⟩ }

/-- Counterexample to C5 as stated: after `p1` fixes in O2, the still-active
sabotage has `fix_progress["O2"] = 3` strictly above `fix_required["O2"] = 2`
— the claimed cap at `fix_required` does not exist in the code, and the
invariant `fix_progress[r] ≤ fix_required[r]` fails after `resolve_round`. -/
theorem C5_fix_progress_counterexample :
    (resolveRound fixState [("p1", RawAction.mk "fix_sabotage" none)]).sabotage.map
        (fun sab => alGetD sab.fix_progress "O2" 0) = some 3 ∧
    (resolveRound fixState [("p1", RawAction.mk "fix_sabotage" none)]).sabotage.map
        (fun sab => alGetD sab.fix_required "O2" 0) = some 2 := by
  constructor
  · decide
  · decide

/-- C5 (amended).  Each `fix_sabotage` action increments `fix_progress` at
the fixer's location by 1 with **no cap** (so the invariant
`fix_progress[r] ≤ fix_required[r]` can be violated while the sabotage
stays active); a fixer standing outside every fix location leaves the map
unchanged; and after the fix phase, when every fix location has reached its
requirement the active sabotage is cleared and `sabotage_cooldown` is set
from config, otherwise the state is untouched. -/
theorem C5_fix_progress_amended :
    (∀ (s : GameState) (va : List (String × RawAction)),
      resolveFixes s va = clearIfFixed (va.foldl
        (fun st pa => if pa.2.act = "fix_sabotage" then applyFix st pa.1 else st) s)) ∧
    (∀ (s : GameState) (pid : String) (p : Player) (sab : ActiveSabotage),
      s.player pid = some p → s.sabotage = some sab →
      alHas sab.fix_progress p.location = true →
      (applyFix s pid).sabotage = some { sab with
        fix_progress := alUpdate sab.fix_progress p.location (fun v => v + 1) }) ∧
    (∀ (s : GameState) (pid : String) (p : Player),
      s.player pid = some p →
      alHas ((s.sabotage.map (fun sab => sab.fix_progress)).getD []) p.location = false →
      (applyFix s pid).sabotage = s.sabotage) ∧
    (∀ (s : GameState) (sab : ActiveSabotage), s.sabotage = some sab →
      (sab.fix_required.all (fun e => alGetD sab.fix_progress e.1 0 ≥ e.2) = true →
        (clearIfFixed s).sabotage = none ∧
        (clearIfFixed s).sabotage_cooldown = s.config.sabotage_cooldown) ∧
      (sab.fix_required.all (fun e => alGetD sab.fix_progress e.1 0 ≥ e.2) = false →
        clearIfFixed s = s)) := by
  refine ⟨fun s va => rfl, ?_, ?_, ?_⟩
  · intro s pid p sab hp hsab hhas
    simp [applyFix, hp, hsab, hhas]
  · intro s pid p hp hhas
    cases hsab : s.sabotage with
    | none => simp [applyFix, hp, hsab]
    | some sab =>
      rw [hsab] at hhas
      simp at hhas
      simp [applyFix, hp, hsab, hhas]
  · intro s sab hsab
    constructor
    · intro hall
      constructor
      · simp [clearIfFixed, hsab, hall]
      · simp [clearIfFixed, hsab, hall]
    · intro hall
      simp [clearIfFixed, hsab, hall]

/-- Witness for `C5_fix_progress_amended`: in `fixState`, applying a fix for
`p1` bumps the O2 progress from 2 to 3 in the still-required map. -/
theorem C5_fix_progress_amended_witness :
    (applyFix fixState "p1").sabotage = some ⟨.o2, true, some 10,
      [("O2", 3), ("Admin", 0)], [("O2", 2), ("Admin", 2)]⟩ := by
  have h := C5_fix_progress_amended.2.1 fixState "p1"
    { id := "p1", role := .crewmate, location := "O2" }
    ⟨.o2, true, some 10, [("O2", 2), ("Admin", 0)], [("O2", 2), ("Admin", 2)]⟩
    (by decide) rfl (by decide)
  rw [h]
  decide

/-! ## Claim C1: a body report records — but does not remove — the body
(corrected) -/

/-- Concrete state refuting C1 as stated: one body in the Cafeteria, a
crewmate reporter standing next to it, and enough other players that no
win condition fires. -/
def reportState : GameState :=
  { config := {},
    players := [{ id := "p1", role := .crewmate },
                { id := "p2", role := .impostor, location := "Admin" },
                { id := "p3", role := .crewmate, location := "Admin" }],
    bodies := [⟨"p9", "Cafeteria"⟩] }

/-- Counterexample to C1 as stated: `p1` reports the body; the installed
meeting context records the body's player id and location, but the body is
**not** removed from `state.bodies` — the very same location-and-player pair
is still there after the call. -/
theorem C1_report_body_counterexample :
    (resolveRound reportState [("p1", RawAction.mk "report" none)]).meeting_context =
      some ⟨"body_report", "p1", some "p9", some "Cafeteria"⟩ ∧
    (resolveRound reportState [("p1", RawAction.mk "report" none)]).bodies =
      [⟨"p9", "Cafeteria"⟩] := by
  constructor
  · decide
  · decide

/-- C1 (amended).  When step 7 installs a `body_report` meeting, the first
body in the caller's room at install time has its player id and location
recorded in `meeting_context`, but `state.bodies` (and the player roster)
is left completely unchanged: the resolver never removes bodies on report. -/
theorem C1_report_body_amended (s : GameState) (va : List (String × RawAction))
    (caller : String) (rest : List String)
    (h : reportersOf va = caller :: rest) :
    (resolveMeetings s va).2 = true ∧
    (resolveMeetings s va).1.bodies = s.bodies ∧
    (resolveMeetings s va).1.players = s.players ∧
    (resolveMeetings s va).1.meeting_context =
      some ⟨"body_report", caller,
        (s.bodies.find? (fun b =>
          b.location = ((s.player caller).map (fun p => p.location)).getD "")).map
            (fun b => b.player_id),
        (s.bodies.find? (fun b =>
          b.location = ((s.player caller).map (fun p => p.location)).getD "")).map
            (fun b => b.location)⟩ ∧
    (resolveMeetings s va).1.phase = .discussion := by
  have hbodies : ∀ (t : GameState) trig c bf reps emers,
      (installMeeting t trig c bf reps emers).bodies = t.bodies :=
    fun t trig c bf reps emers => rfl
  have hplayers : ∀ (t : GameState) trig c bf reps emers,
      (installMeeting t trig c bf reps emers).players = t.players :=
    fun t trig c bf reps emers => rfl
  have hmc : ∀ (t : GameState) trig c bf reps emers,
      (installMeeting t trig c bf reps emers).meeting_context =
        some ⟨trig, c, bf.map (fun b => b.player_id), bf.map (fun b => b.location)⟩ :=
    fun t trig c bf reps emers => rfl
  have hph : ∀ (t : GameState) trig c bf reps emers,
      (installMeeting t trig c bf reps emers).phase = .discussion :=
    fun t trig c bf reps emers => rfl
  unfold resolveMeetings
  rw [h]
  exact ⟨rfl, hbodies _ _ _ _ _ _, hplayers _ _ _ _ _ _, hmc _ _ _ _ _ _,
    hph _ _ _ _ _ _⟩

/-- Witness for `C1_report_body_amended`: in `reportState` with `p1`
reporting, the meeting step fires and keeps the body list intact. -/
theorem C1_report_body_amended_witness :
    (resolveMeetings reportState [("p1", RawAction.mk "report" none)]).1.bodies =
      reportState.bodies :=
  (C1_report_body_amended reportState [("p1", RawAction.mk "report" none)]
    "p1" [] (by decide)).2.1

/-! ## Claim C6: calling the resolver after game over (corrected: not a
no-op) -/

/-- The six state components that steps 0-5 of the resolver never touch
(besides `round_number`, which only step 0 increments). -/
def frame6 (s : GameState) :
    Option String × Int × List RoundLogEntry × List (String × List Task) ×
      Option MeetingContext × List (String × List Sighting) :=
  (s.winner, s.round_number, s.game_log, s.tasks, s.meeting_context, s.sighting_history)

theorem frame6_appendEvent (s : GameState) (pid e : String) :
    frame6 (appendEvent s pid e) = frame6 s := rfl

theorem frame6_passAndHistory (cap : Int) :
    ∀ (l : List (String × String × String)) (st : GameState),
      frame6 (passAndHistory cap st l) = frame6 st := by
  intro l
  induction l with
  | nil => intro st; rfl
  | cons m1 rest ih =>
    intro st
    unfold passAndHistory
    rw [ih]
    have h0 : ∀ (t : GameState) m,
        frame6 (pushMoveHistory cap t m) = frame6 t := fun t m => rfl
    rw [h0]
    exact foldl_preserves frame6 (passPairEvents m1) (by
      intro st2 m2
      unfold passPairEvents
      split <;> rfl) rest st

theorem frame6_applyOneMove (ids : List String) (st : GameState)
    (m : String × String × String) :
    frame6 (applyOneMove ids st m) = frame6 st := by
  unfold applyOneMove
  rw [foldl_preserves frame6 _ (by
    intro st2 op
    split
    · split
      · rfl
      · split
        · rfl
        · rfl
    · rfl) _ _]
  rfl

theorem frame6_resolveMovement (s : GameState) (va : List (String × RawAction)) :
    frame6 (resolveMovement s va) = frame6 s := by
  unfold resolveMovement
  rw [frame6_passAndHistory]
  rw [foldl_preserves frame6 (applyOneMove ((movesOf s va).map (fun m => m.1)))
    (fun st m => frame6_applyOneMove _ st m) (movesOf s va)]
  rw [foldl_preserves frame6 _ (by
    intro st m
    rfl) (movesOf s va) s]

theorem frame6_notifyKillWitnesses (a b c d : String) (s : GameState) :
    frame6 (notifyKillWitnesses a b c d s) = frame6 s := by
  unfold notifyKillWitnesses
  rw [foldl_preserves frame6 _ (by
    intro st w
    split
    · rfl
    · rfl) _ _]

theorem frame6_killStep (va : List (String × RawAction)) (s : GameState)
    (pid : String) : frame6 (killStep va s pid) = frame6 s := by
  unfold killStep
  split
  · rfl
  · dsimp only
    split
    · split
      · rw [frame6_notifyKillWitnesses]
        rfl
      · rfl
    · rfl

theorem frame6_resolveKills (s : GameState) (va : List (String × RawAction)) :
    frame6 (resolveKills s va) = frame6 s := by
  unfold resolveKills
  exact foldl_preserves frame6 _ (fun st p => frame6_killStep va st p) _ _

theorem frame6_step2 (s : GameState) :
    frame6 (step2 s).1 =
      ((step2 s).1.winner, s.round_number, s.game_log, s.tasks,
       s.meeting_context, s.sighting_history) := by
  unfold step2
  split
  · split
    · split
      · split
        · rfl
        · rfl
      · rfl
    · rfl
  · rfl

theorem step2_winner (s : GameState) :
    ((step2 s).2 = false → (step2 s).1.winner = s.winner) ∧
    ((step2 s).2 = true → (step2 s).1.winner = some "impostors") := by
  cases hsab : s.sabotage with
  | none =>
    constructor
    · intro h
      simp [step2, hsab]
    · intro h
      simp [step2, hsab] at h
  | some sab =>
    by_cases hcrit : sab.critical = true
    · cases hcd : sab.countdown with
      | none =>
        constructor
        · intro h
          simp [step2, hsab, hcrit, hcd]
        · intro h
          simp [step2, hsab, hcrit, hcd] at h
      | some c =>
        by_cases hle : c - 1 ≤ 0
        · constructor
          · intro h
            simp [step2, hsab, hcrit, hcd, hle] at h
          · intro h
            simp [step2, hsab, hcrit, hcd, hle]
        · constructor
          · intro h
            simp [step2, hsab, hcrit, hcd, hle]
          · intro h
            simp [step2, hsab, hcrit, hcd, hle] at h
    · rw [Bool.not_eq_true] at hcrit
      constructor
      · intro h
        simp [step2, hsab, hcrit]
      · intro h
        simp [step2, hsab, hcrit] at h

theorem checkWin_id_of_isSome (s : GameState) (h : s.winner.isSome = true) :
    checkWin s = s := by
  unfold checkWin
  simp [h]

theorem winner_of_frame6 {X Y : GameState} (h : frame6 X = frame6 Y) :
    X.winner = Y.winner := congrArg (fun p => p.1) h

theorem round_of_frame6 {X Y : GameState} (h : frame6 X = frame6 Y) :
    X.round_number = Y.round_number := congrArg (fun p => p.2.1) h

theorem log_of_frame6 {X Y : GameState} (h : frame6 X = frame6 Y) :
    X.game_log = Y.game_log := congrArg (fun p => p.2.2.1) h

theorem tasks_of_frame6 {X Y : GameState} (h : frame6 X = frame6 Y) :
    X.tasks = Y.tasks := congrArg (fun p => p.2.2.2.1) h

theorem mc_of_frame6 {X Y : GameState} (h : frame6 X = frame6 Y) :
    X.meeting_context = Y.meeting_context := congrArg (fun p => p.2.2.2.2.1) h

theorem sh_of_frame6 {X Y : GameState} (h : frame6 X = frame6 Y) :
    X.sighting_history = Y.sighting_history := congrArg (fun p => p.2.2.2.2.2) h

/-- A concrete finished game (winner already set, phase GAME_OVER). -/
def gameOverState : GameState :=
  { config := {}, phase := .game_over, winner := some "crewmates",
    win_cause := some "timeout", round_number := 5,
    players := [{ id := "p1", role := .crewmate },
                { id := "p2", role := .impostor }] }

/-- Counterexample to C6 as stated: calling `resolve_round` on a finished
game with everyone waiting is **not** a no-op — `round_number` still
advances from 5 to 6 (events and action_results are also reset). -/
theorem C6_game_over_counterexample :
    gameOverState.winner.isSome = true ∧
    (resolveRound gameOverState
      [("p1", RawAction.mk "wait" none), ("p2", RawAction.mk "wait" none)]).round_number = 6 ∧
    gameOverState.round_number = 5 := by
  refine ⟨by decide, by decide, by decide⟩

/-- C6 (amended).  `resolve_round` has no winner guard: on a state whose
winner is already set it still resets the transient fields, increments
`round_number`, ticks cooldowns, and applies movement and kills, but it
returns at the step-5 win-check, so tasks, meetings, sightings and the
round log are untouched and a winner remains set: `round_number` is
incremented by exactly one while `game_log`, `tasks`, `meeting_context` and
`sighting_history` are unchanged. -/
theorem C6_game_over_amended (s : GameState) (actions : List (String × RawAction))
    (h : s.winner.isSome = true) :
    (resolveRound s actions).winner.isSome = true ∧
    (resolveRound s actions).round_number = s.round_number + 1 ∧
    (resolveRound s actions).game_log = s.game_log ∧
    (resolveRound s actions).tasks = s.tasks ∧
    (resolveRound s actions).meeting_context = s.meeting_context ∧
    (resolveRound s actions).sighting_history = s.sighting_history := by
  have hfr1 : (step1 (step0 s)).winner = s.winner := rfl
  rcases hs2 : step2 (step1 (step0 s)) with ⟨s2, b⟩
  have hfr2 := frame6_step2 (step1 (step0 s))
  rw [hs2] at hfr2
  have hrn2 : s2.round_number = s.round_number + 1 :=
    congrArg (fun p => p.2.1) hfr2
  have hgl2 : s2.game_log = s.game_log := congrArg (fun p => p.2.2.1) hfr2
  have htk2 : s2.tasks = s.tasks := congrArg (fun p => p.2.2.2.1) hfr2
  have hmc2 : s2.meeting_context = s.meeting_context :=
    congrArg (fun p => p.2.2.2.2.1) hfr2
  have hsh2 : s2.sighting_history = s.sighting_history :=
    congrArg (fun p => p.2.2.2.2.2) hfr2
  cases b with
  | true =>
    have hres : resolveRound s actions = s2 := by
      simp only [resolveRound, hs2]
    have hw : s2.winner = some "impostors" := by
      have := (step2_winner (step1 (step0 s))).2
      rw [hs2] at this
      exact this rfl
    rw [hres]
    exact ⟨by rw [hw]; rfl, hrn2, hgl2, htk2, hmc2, hsh2⟩
  | false =>
    have hw2 : s2.winner = s.winner := by
      have := (step2_winner (step1 (step0 s))).1
      rw [hs2] at this
      exact this rfl
    have hres : resolveRound s actions = resolveRoundAfter2 s2 actions := by
      simp only [resolveRound, hs2]
    rcases hva : validateAll s2 actions with ⟨results, va⟩
    have hs3w : (({ s2 with action_results := results } : GameState)).winner = s.winner := by
      rw [← hw2]
    have hfr45 : frame6 (resolveKills
        (resolveMovement { s2 with action_results := results } va) va) =
        frame6 ({ s2 with action_results := results } : GameState) := by
      rw [frame6_resolveKills, frame6_resolveMovement]
    have h5w : (resolveKills
        (resolveMovement { s2 with action_results := results } va) va).winner = s.winner := by
      rw [winner_of_frame6 hfr45, hs3w]
    have h5some : (resolveKills
        (resolveMovement { s2 with action_results := results } va) va).winner.isSome = true := by
      rw [h5w]; exact h
    have hcw : checkWin (resolveKills
        (resolveMovement { s2 with action_results := results } va) va) =
        resolveKills (resolveMovement { s2 with action_results := results } va) va :=
      checkWin_id_of_isSome _ h5some
    have hres2 : resolveRoundAfter2 s2 actions =
        resolveKills (resolveMovement { s2 with action_results := results } va) va := by
      simp only [resolveRoundAfter2, hva, hcw, h5some, if_true]
    rw [hres, hres2]
    have hfrs3 : frame6 ({ s2 with action_results := results } : GameState) = frame6 s2 := rfl
    have hfr : frame6 (resolveKills
        (resolveMovement { s2 with action_results := results } va) va) = frame6 s2 := by
      rw [hfr45, hfrs3]
    refine ⟨?_, ?_, ?_, ?_, ?_, ?_⟩
    · rw [winner_of_frame6 hfr, hw2]; exact h
    · rw [round_of_frame6 hfr, hrn2]
    · rw [log_of_frame6 hfr, hgl2]
    · rw [tasks_of_frame6 hfr, htk2]
    · rw [mc_of_frame6 hfr, hmc2]
    · rw [sh_of_frame6 hfr, hsh2]

/-- Witness for `C6_game_over_amended`: calling the resolver on the finished
`gameOverState` keeps a winner set and leaves the round log unchanged. -/
theorem C6_game_over_amended_witness :
    (resolveRound gameOverState []).winner.isSome = true ∧
    (resolveRound gameOverState []).game_log = gameOverState.game_log :=
  ⟨(C6_game_over_amended gameOverState [] (by decide)).1,
   (C6_game_over_amended gameOverState [] (by decide)).2.2.1⟩

/-! ## Claim C7: the all-wait round (corrected: the round is logged and
more) -/

/-- The action map in which every player submits `wait`. -/
def allWait (s : GameState) : List (String × RawAction) :=
  s.players.map (fun p => (p.id, RawAction.mk "wait" none))

/-- The identity-relevant core of a player: everything except
`kill_cooldown` (ticked by step 1) and `last_action` (overwritten by
step 11). -/
def coreOf (p : Player) : String × Role × Bool × Bool × String × Int :=
  (p.id, p.role, p.alive, p.ejected, p.location, p.emergency_meetings_remaining)

/-- The components of the state that an all-wait round must leave unchanged
(together with `round_number`, tracked alongside). -/
def frameC7 (s : GameState) :
    List (String × Role × Bool × Bool × String × Int) × List Body ×
      List (String × List Task) × List (String × List MoveRecord) ×
      Option MeetingContext × List String × Int :=
  (s.players.map coreOf, s.bodies, s.tasks, s.movement_history,
   s.meeting_context, s.chat_history, s.round_number)

/-- A fold invariant: an invariant true of the seed and preserved by every
step holds of the result. -/
theorem foldl_invariant {α β : Type} (P : β → Prop) (g : β → α → β) :
    ∀ (l : List α) (b : β), P b → (∀ b a, a ∈ l → P b → P (g b a)) →
      P (l.foldl g b) := by
  intro l
  induction l with
  | nil => intro b hb _; exact hb
  | cons a l ih =>
    intro b hb hg
    rw [List.foldl_cons]
    exact ih (g b a) (hg b a (List.mem_cons_self a l) hb)
      (fun b' a' ha' hb' => hg b' a' (List.mem_cons_of_mem a ha') hb')

/-- A fold whose steps act as the identity on every list element is the
identity. -/
theorem foldl_id {α : Type} (g : GameState → α → GameState) (l : List α)
    (s : GameState) (h : ∀ st a, a ∈ l → g st a = st) : l.foldl g s = s := by
  induction l generalizing s with
  | nil => rfl
  | cons a l ih =>
    rw [List.foldl_cons, h s a (List.mem_cons_self a l)]
    exact ih s (fun st a' ha' => h st a' (List.mem_cons_of_mem a ha'))

/-- Every action in `allWait s` is a `wait`. -/
theorem allWait_is_wait (s : GameState) :
    ∀ a ∈ allWait s, a.2 = RawAction.mk "wait" none := by
  intro a ha
  unfold allWait at ha
  obtain ⟨p, _, hpa⟩ := List.mem_map.mp ha
  rw [← hpa]

/-- When every submitted action is a `wait`, every validated action is a
`wait` too. -/
theorem validateAll_wait (s : GameState) (actions : List (String × RawAction))
    (h : ∀ a ∈ actions, a.2 = RawAction.mk "wait" none) :
    ∀ e ∈ (validateAll s actions).2, e.2 = RawAction.mk "wait" none := by
  unfold validateAll
  have P1 : ∀ e ∈ (actions.foldl (validateStep s) ([], [])).2,
      e.2 = RawAction.mk "wait" none := by
    apply foldl_invariant
      (fun acc : List (String × ActionResult) × List (String × RawAction) =>
        ∀ e ∈ acc.2, e.2 = RawAction.mk "wait" none)
    · intro e he
      simp at he
    · intro acc a ha hacc e he
      unfold validateStep at he
      rcases List.mem_append.mp he with h1 | h2
      · exact hacc e h1
      · have := List.mem_singleton.mp h2
        rw [this]
        dsimp only
        rw [h a ha]
        split <;> rfl
  exact foldl_invariant
    (fun acc : List (String × ActionResult) × List (String × RawAction) =>
      ∀ e ∈ acc.2, e.2 = RawAction.mk "wait" none) _ _ _ P1
    (by
      intro acc p _ hacc e he
      unfold fillWaitStep at he
      split at he
      · exact hacc e he
      · rcases List.mem_append.mp he with h1 | h2
        · exact hacc e h1
        · rw [List.mem_singleton.mp h2])

/-- With no validated `move` the moves list is empty. -/
theorem movesOf_nil (s : GameState) (va : List (String × RawAction))
    (h : ∀ e ∈ va, e.2 = RawAction.mk "wait" none) : movesOf s va = [] := by
  unfold movesOf
  have hf : va.filter (fun pa => pa.2.act = "move") = [] := by
    rw [List.filter_eq_nil_iff]
    intro a ha
    rw [h a ha]
    decide
  rw [hf]
  rfl

/-- Movement with an empty moves list is the identity. -/
theorem resolveMovement_id (s : GameState) (va : List (String × RawAction))
    (h : movesOf s va = []) : resolveMovement s va = s := by
  unfold resolveMovement
  rw [h]
  rfl

/-- Kills with no validated `kill` are the identity. -/
theorem resolveKills_id (s : GameState) (va : List (String × RawAction))
    (h : ∀ e ∈ va, e.2 = RawAction.mk "wait" none) : resolveKills s va = s := by
  have hk : killerIds va = [] := by
    unfold killerIds
    have hf : va.filter (fun pa => pa.2.act = "kill") = [] := by
      rw [List.filter_eq_nil_iff]
      intro a ha
      rw [h a ha]
      decide
    rw [hf]
    rfl
  unfold resolveKills
  rw [hk]
  rfl

/-- A `wait` is a no-op in the task phase. -/
theorem taskStep_wait (st : GameState) (pid : String) :
    taskStep st pid (RawAction.mk "wait" none) = st := by
  unfold taskStep
  rw [if_neg (by decide), if_neg (by decide)]

/-- Tasks with only waits are the identity. -/
theorem resolveTasks_id (s : GameState) (va : List (String × RawAction))
    (h : ∀ e ∈ va, e.2 = RawAction.mk "wait" none) : resolveTasks s va = s := by
  unfold resolveTasks
  apply foldl_id
  intro st a ha
  rw [h a ha]
  exact taskStep_wait st a.1

/-- With only waits no meeting fires. -/
theorem resolveMeetings_id (s : GameState) (va : List (String × RawAction))
    (h : ∀ e ∈ va, e.2 = RawAction.mk "wait" none) :
    resolveMeetings s va = (s, false) := by
  have hr : reportersOf va = [] := by
    unfold reportersOf
    have hf : va.filter (fun pa => pa.2.act = "report") = [] := by
      rw [List.filter_eq_nil_iff]
      intro a ha
      rw [h a ha]
      decide
    rw [hf]
    rfl
  have he : emergenciesOf va = [] := by
    unfold emergenciesOf
    have hf : va.filter (fun pa => pa.2.act = "call_emergency") = [] := by
      rw [List.filter_eq_nil_iff]
      intro a ha
      rw [h a ha]
      decide
    rw [hf]
    rfl
  unfold resolveMeetings
  rw [hr, he]

/-- With only waits no sabotage is triggered. -/
theorem resolveSabotageTrigger_id (s : GameState) (va : List (String × RawAction))
    (h : ∀ e ∈ va, e.2 = RawAction.mk "wait" none) :
    resolveSabotageTrigger s va = s := by
  unfold resolveSabotageTrigger
  have hf : va.filter (fun pa => pa.2.act = "sabotage") = [] := by
    rw [List.filter_eq_nil_iff]
    intro a ha
    rw [h a ha]
    decide
  rw [hf]
  cases s.sabotage <;> rfl

/-- With only waits the admin table is untouched. -/
theorem resolveAdmin_id (s : GameState) (va : List (String × RawAction))
    (h : ∀ e ∈ va, e.2 = RawAction.mk "wait" none) : resolveAdmin s va = s := by
  unfold resolveAdmin
  have hf : va.filter (fun pa => pa.2.act = "use_admin") = [] := by
    rw [List.filter_eq_nil_iff]
    intro a ha
    rw [h a ha]
    decide
  rw [hf]
  rfl

/-- A per-player update that keeps the identity core keeps the roster
core. -/
theorem core_updatePlayer (ps : List Player) (pid : String) (f : Player → Player)
    (hf : ∀ p, coreOf (f p) = coreOf p) :
    (updatePlayer ps pid f).map coreOf = ps.map coreOf := by
  unfold updatePlayer
  rw [List.map_map]
  apply List.map_congr_left
  intro p _
  dsimp only [Function.comp]
  split
  · exact hf p
  · rfl

theorem frameC7_checkWin (s : GameState) : frameC7 (checkWin s) = frameC7 s := by
  unfold checkWin
  split_ifs <;> rfl

theorem frameC7_clearIfFixed (s : GameState) :
    frameC7 (clearIfFixed s) = frameC7 s := by
  unfold clearIfFixed
  split
  · split <;> rfl
  · rfl

theorem frameC7_applyFix (s : GameState) (pid : String) :
    frameC7 (applyFix s pid) = frameC7 s := by
  unfold applyFix
  split
  · rfl
  · have hcore : (updatePlayer s.players pid
        (fun q => { q with last_action := "fixing" })).map coreOf =
        s.players.map coreOf :=
      core_updatePlayer _ _ _ (fun p => rfl)
    dsimp only
    split
    · split
      · simp [frameC7, hcore]
      · simp [frameC7, hcore]
    · simp [frameC7, hcore]

theorem frameC7_resolveFixes (s : GameState) (va : List (String × RawAction)) :
    frameC7 (resolveFixes s va) = frameC7 s := by
  unfold resolveFixes
  rw [frameC7_clearIfFixed]
  exact foldl_preserves frameC7 _ (by
    intro st pa
    split
    · exact frameC7_applyFix st pa.1
    · rfl) _ _

theorem frameC7_fillLastAction (s : GameState) (va : List (String × RawAction)) :
    frameC7 (fillLastAction s va) = frameC7 s := by
  unfold fillLastAction
  exact foldl_preserves frameC7 _ (by
    intro st pa
    split
    · have hcore : (updatePlayer st.players pa.1
          (fun q => { q with last_action := "idle" })).map coreOf =
          st.players.map coreOf :=
        core_updatePlayer _ _ _ (fun p => rfl)
      simp [frameC7, hcore]
    · rfl) _ _

theorem frameC7_pushSighting (s : GameState) (pid : String) (x : Sighting) :
    frameC7 (pushSighting s pid x) = frameC7 s := rfl

theorem frameC7_updateSightings (s : GameState) :
    frameC7 (updateSightings s) = frameC7 s := by
  unfold updateSightings
  exact foldl_preserves frameC7 _ (by
    intro st p
    split
    · rfl
    · split
      · rfl
      · exact foldl_preserves frameC7 _ (by
          intro st2 op
          split
          · exact frameC7_pushSighting st2 p.id _
          · rfl) _ _) _ _

theorem frameC7_logRound (s : GameState) (va : List (String × RawAction)) :
    frameC7 (logRound s va) = frameC7 s := rfl

theorem frameC7_resolveRoundTail (s : GameState) (va : List (String × RawAction))
    (h : ∀ e ∈ va, e.2 = RawAction.mk "wait" none) :
    frameC7 (resolveRoundTail s va) = frameC7 s := by
  unfold resolveRoundTail
  rw [frameC7_checkWin, frameC7_logRound, frameC7_updateSightings,
    frameC7_fillLastAction, resolveAdmin_id _ _ h, frameC7_resolveFixes,
    resolveSabotageTrigger_id _ _ h]

theorem frameC7_step1 (s : GameState) : frameC7 (step1 s) = frameC7 s := by
  have hcore : ((s.players.map (fun p =>
      if p.role = .impostor then { p with kill_cooldown := max 0 (p.kill_cooldown - 1) }
      else p)).map coreOf) = s.players.map coreOf := by
    rw [List.map_map]
    apply List.map_congr_left
    intro p _
    dsimp only [Function.comp]
    split <;> rfl
  simp [frameC7, step1, hcore]

theorem frameC7_step0 (s : GameState) :
    frameC7 (step0 s) = (s.players.map coreOf, s.bodies, s.tasks,
      s.movement_history, s.meeting_context, s.chat_history, s.round_number + 1) := rfl

theorem frameC7_step2 (s : GameState) : frameC7 (step2 s).1 = frameC7 s := by
  unfold step2
  split
  · split
    · split
      · split
        · rfl
        · rfl
      · rfl
    · rfl
  · rfl

/-- A concrete running game: one impostor, three crewmates, one pending
task, no winner. -/
def waitState : GameState :=
  { config := {},
    players := [{ id := "p1", role := .crewmate },
                { id := "p2", role := .impostor },
                { id := "p3", role := .crewmate },
                { id := "p4", role := .crewmate, location := "Admin" }],
    tasks := [("p1", [⟨"t1", "Upload Data", "Admin", 2, 0, false⟩])] }

/-- Counterexample to C7 as stated: running an all-wait round on a live game
appends a round entry to `game_log` (the claim says `game_log` is among the
unchanged components). -/
theorem C7_all_wait_counterexample :
    waitState.winner = none ∧
    (resolveRound waitState (allWait waitState)).game_log.length =
      waitState.game_log.length + 1 := by
  constructor
  · decide
  · decide

/-- C7 (amended).  For every state without a winner, an all-wait round
leaves the players' identity core (id, role, alive, ejected, location,
meetings remaining), `bodies`, `tasks`, `movement_history`,
`meeting_context` and `chat_history` unchanged and increments
`round_number` by one.  (Unlike the original claim, `game_log`, `events`,
`action_results`, `last_action`, `sighting_history` — and via win-checks
possibly `winner`/`phase` — are *not* invariant.) -/
theorem C7_all_wait_amended (s : GameState) (h : s.winner = none) :
    (resolveRound s (allWait s)).players.map coreOf = s.players.map coreOf ∧
    (resolveRound s (allWait s)).bodies = s.bodies ∧
    (resolveRound s (allWait s)).tasks = s.tasks ∧
    (resolveRound s (allWait s)).movement_history = s.movement_history ∧
    (resolveRound s (allWait s)).meeting_context = s.meeting_context ∧
    (resolveRound s (allWait s)).chat_history = s.chat_history ∧
    (resolveRound s (allWait s)).round_number = s.round_number + 1 := by
  have hw := allWait_is_wait s
  rcases hs2 : step2 (step1 (step0 s)) with ⟨s2, b⟩
  have hf2 : frameC7 s2 = frameC7 (step1 (step0 s)) := by
    have := frameC7_step2 (step1 (step0 s))
    rw [hs2] at this
    exact this
  have hf01 : frameC7 (step1 (step0 s)) =
      (s.players.map coreOf, s.bodies, s.tasks, s.movement_history,
       s.meeting_context, s.chat_history, s.round_number + 1) := by
    rw [frameC7_step1, frameC7_step0]
  have hgoal : frameC7 (resolveRound s (allWait s)) =
      (s.players.map coreOf, s.bodies, s.tasks, s.movement_history,
       s.meeting_context, s.chat_history, s.round_number + 1) := by
    cases b with
    | true =>
      have hres : resolveRound s (allWait s) = s2 := by
        simp only [resolveRound, hs2]
      rw [hres, hf2, hf01]
    | false =>
      have hres : resolveRound s (allWait s) = resolveRoundAfter2 s2 (allWait s) := by
        simp only [resolveRound, hs2]
      rcases hva : validateAll s2 (allWait s) with ⟨results, va⟩
      have hwv : ∀ e ∈ va, e.2 = RawAction.mk "wait" none := by
        have := validateAll_wait s2 (allWait s) hw
        rw [hva] at this
        exact this
      have hmv : resolveMovement ({ s2 with action_results := results } : GameState) va =
          { s2 with action_results := results } :=
        resolveMovement_id _ _ (movesOf_nil _ _ hwv)
      have hkl : resolveKills ({ s2 with action_results := results } : GameState) va =
          { s2 with action_results := results } :=
        resolveKills_id _ _ hwv
      have htk : resolveTasks (checkWin { s2 with action_results := results }) va =
          checkWin { s2 with action_results := results } :=
        resolveTasks_id _ _ hwv
      have hme : resolveMeetings
          (checkWin (checkWin { s2 with action_results := results })) va =
          (checkWin (checkWin { s2 with action_results := results }), false) :=
        resolveMeetings_id _ _ hwv
      have hres2 : resolveRoundAfter2 s2 (allWait s) =
          (if (checkWin { s2 with action_results := results }).winner.isSome = true
           then checkWin { s2 with action_results := results }
           else
             if (checkWin (checkWin { s2 with action_results := results })).winner.isSome = true
             then checkWin (checkWin { s2 with action_results := results })
             else resolveRoundTail
               (checkWin (checkWin { s2 with action_results := results })) va) := by
        simp only [resolveRoundAfter2, hva, hmv, hkl, htk, hme]
      have hbase : frameC7 ({ s2 with action_results := results } : GameState) =
          frameC7 s2 := rfl
      rw [hres, hres2]
      split_ifs with h5 h6
      · rw [frameC7_checkWin, hbase, hf2, hf01]
      · rw [frameC7_checkWin, frameC7_checkWin, hbase, hf2, hf01]
      · rw [frameC7_resolveRoundTail _ _ hwv, frameC7_checkWin, frameC7_checkWin,
          hbase, hf2, hf01]
  exact ⟨congrArg (fun t => t.1) hgoal, congrArg (fun t => t.2.1) hgoal,
    congrArg (fun t => t.2.2.1) hgoal, congrArg (fun t => t.2.2.2.1) hgoal,
    congrArg (fun t => t.2.2.2.2.1) hgoal, congrArg (fun t => t.2.2.2.2.2.1) hgoal,
    congrArg (fun t => t.2.2.2.2.2.2) hgoal⟩

/-- Witness for `C7_all_wait_amended`: on the concrete `waitState` the
all-wait round keeps bodies/tasks and bumps the round counter. -/
theorem C7_all_wait_amended_witness :
    (resolveRound waitState (allWait waitState)).bodies = waitState.bodies ∧
    (resolveRound waitState (allWait waitState)).round_number =
      waitState.round_number + 1 :=
  ⟨(C7_all_wait_amended waitState rfl).2.1,
   (C7_all_wait_amended waitState rfl).2.2.2.2.2.2⟩

/-! ## Claim C2: kill resolution -/

/-- The reason string recorded by a failed kill. -/
def killFailReason (tid : String) : String :=
  s!"Target {tid} is not in your room after movement resolved or is dead."

/-- The post-kill state before witnesses are notified: victim dead, body
appended, killer cooldown reset, result marked successful. -/
def killAftermath (s : GameState) (pid tid : String) (target : Player) : GameState :=
  let ps := updatePlayer (updatePlayer s.players target.id
    (fun q => { q with alive := false })) pid
    (fun q => { q with kill_cooldown := s.config.kill_cooldown })
  let ar := alUpdate s.action_results pid (fun r => { r with success := true })
  { s with players := ps, bodies := s.bodies ++ [Body.mk tid target.location],
           action_results := ar }

/-- The witness loop of a kill only appends events. -/
theorem notifyKillWitnesses_fields (a b c d : String) (s : GameState) :
    (notifyKillWitnesses a b c d s).players = s.players ∧
    (notifyKillWitnesses a b c d s).bodies = s.bodies ∧
    (notifyKillWitnesses a b c d s).action_results = s.action_results := by
  unfold notifyKillWitnesses
  have h := foldl_preserves
    (fun st => (st.players, st.bodies, st.action_results))
    (fun st w =>
      if w.alive ∧ w.location = a ∧ ¬ blindedBy st.sabotage w.role ∧
          w.id ≠ b ∧ w.id ≠ c then
        appendEvent st w.id s!"{d} was killed!"
      else st)
    (by
      intro st w
      dsimp only
      split
      · rfl
      · rfl) s.players s
  exact ⟨congrArg (fun t => t.1) h, congrArg (fun t => t.2.1) h,
    congrArg (fun t => t.2.2) h⟩

/-- On a live, co-located target the kill step reduces to the witness
notification applied to the post-kill state. -/
theorem killStep_success_eq (s : GameState) (va : List (String × RawAction))
    (pid tid : String) (killer target : Player)
    (hp : s.player pid = some killer)
    (hbind : (alGet va pid).bind (fun a => a.tgt) = some tid)
    (ht : s.player tid = some target)
    (hcond : target.alive = true ∧ target.location = killer.location) :
    killStep va s pid =
      notifyKillWitnesses killer.location killer.id target.id tid
        (killAftermath s pid tid target) := by
  have hscrut : ((alGet va pid).bind (fun a => a.tgt)).bind
      (fun t => s.player t) = some target := by
    rw [hbind]
    simpa using ht
  have hgetd : ((alGet va pid).bind (fun a => a.tgt)).getD "" = tid := by
    rw [hbind]
    rfl
  simp only [killStep, hp, hscrut, hgetd, if_pos hcond]
  rfl

/-- C2.  Kills resolve after movement, in lexicographic order of killer id
(the kill phase folds the kill step over the sorted killer list, which is
sorted and a permutation of the validated killers); each kill step, applied
to a killer with a resolved target, succeeds iff the target is still alive
and in the killer's room: on success the target's alive flag becomes
false, one body is appended at the target's location, the killer's
kill_cooldown is reset to config.kill_cooldown and the action result is
marked successful; on failure players and bodies are untouched (no body,
no cooldown reset) and the action result is failed with a non-empty
reason. -/
theorem C2_kill_resolution :
    (∀ (s : GameState) (va : List (String × RawAction)),
      resolveKills s va = (killerIds va).foldl (killStep va) s ∧
      (killerIds va).Sorted strLeP ∧
      List.Perm (killerIds va)
        ((va.filter (fun pa => pa.2.act = "kill")).map (fun pa => pa.1))) ∧
    (∀ (s : GameState) (va : List (String × RawAction)) (pid tid : String)
      (killer target : Player) (r0 : ActionResult),
      s.player pid = some killer →
      (alGet va pid).bind (fun a => a.tgt) = some tid →
      s.player tid = some target →
      pid ≠ tid →
      alGet s.action_results pid = some r0 →
      ((target.alive = true ∧ target.location = killer.location →
         ((killStep va s pid).player tid).map (fun p => p.alive) = some false ∧
         (killStep va s pid).bodies = s.bodies ++ [⟨tid, target.location⟩] ∧
         ((killStep va s pid).player pid).map (fun p => p.kill_cooldown) =
           some s.config.kill_cooldown ∧
         alGet (killStep va s pid).action_results pid =
           some { r0 with success := true }) ∧
       (¬ (target.alive = true ∧ target.location = killer.location) →
         (killStep va s pid).players = s.players ∧
         (killStep va s pid).bodies = s.bodies ∧
         alGet (killStep va s pid).action_results pid =
           some { r0 with success := false, reason := some (killFailReason tid) } ∧
         killFailReason tid ≠ ""))) := by
  constructor
  · intro s va
    exact ⟨rfl, List.sorted_insertionSort _ _, List.perm_insertionSort _ _⟩
  · intro s va pid tid killer target r0 hp hbind ht hne hr0
    have ht' : s.players.find? (fun p => p.id = tid) = some target := ht
    have hp' : s.players.find? (fun p => p.id = pid) = some killer := hp
    have htid : target.id = tid := by
      have h2 := List.find?_some ht'
      simpa using h2
    have hkid : killer.id = pid := by
      have h2 := List.find?_some hp'
      simpa using h2
    have hscrut : ((alGet va pid).bind (fun a => a.tgt)).bind
        (fun t => s.player t) = some target := by
      rw [hbind]
      simpa using ht
    constructor
    · intro hcond
      have hred : killStep va s pid =
          notifyKillWitnesses killer.location killer.id target.id tid
            (killAftermath s pid tid target) :=
        killStep_success_eq s va pid tid killer target hp hbind ht hcond
      obtain ⟨hP, hB, hA⟩ := notifyKillWitnesses_fields killer.location killer.id
        target.id tid (killAftermath s pid tid target)
      refine ⟨?_, ?_, ?_, ?_⟩
      · show ((killStep va s pid).players.find? (fun p => p.id = tid)).map
          (fun p => p.alive) = some false
        rw [hred, hP]
        show ((updatePlayer (updatePlayer s.players target.id
            (fun q => { q with alive := false })) pid
            (fun q => { q with kill_cooldown := s.config.kill_cooldown })).find?
              (fun p => p.id = tid)).map (fun p => p.alive) = some false
        rw [player_updatePlayer (updatePlayer s.players target.id
          (fun q => { q with alive := false })) pid tid
          (fun q => { q with kill_cooldown := s.config.kill_cooldown }) (fun p => rfl)]
        rw [if_neg (fun hc => hne hc.symm)]
        rw [player_updatePlayer s.players target.id tid
          (fun q => { q with alive := false }) (fun p => rfl)]
        rw [if_pos htid.symm]
        rw [ht']
        rfl
      · rw [hred, hB]
        rfl
      · show ((killStep va s pid).players.find? (fun p => p.id = pid)).map
          (fun p => p.kill_cooldown) = some s.config.kill_cooldown
        rw [hred, hP]
        show ((updatePlayer (updatePlayer s.players target.id
            (fun q => { q with alive := false })) pid
            (fun q => { q with kill_cooldown := s.config.kill_cooldown })).find?
              (fun p => p.id = pid)).map (fun p => p.kill_cooldown) =
          some s.config.kill_cooldown
        rw [player_updatePlayer (updatePlayer s.players target.id
          (fun q => { q with alive := false })) pid pid
          (fun q => { q with kill_cooldown := s.config.kill_cooldown }) (fun p => rfl)]
        rw [if_pos rfl]
        rw [player_updatePlayer s.players target.id pid
          (fun q => { q with alive := false }) (fun p => rfl)]
        rw [if_neg (fun hc => hne (hc.trans htid))]
        rw [hp']
        rfl
      · rw [hred, hA]
        show alGet (alUpdate s.action_results pid
          (fun r => { r with success := true })) pid = some { r0 with success := true }
        rw [alGet_alUpdate, if_pos rfl, hr0]
        rfl
    · intro hcond
      have hgetd : ((alGet va pid).bind (fun a => a.tgt)).getD "None" = tid := by
        rw [hbind]
        rfl
      have hred : killStep va s pid =
          { s with action_results := alUpdate s.action_results pid (fun r => { r with success := false, reason := some (killFailReason tid) }) } := by
        simp only [killStep, hp, hscrut, hgetd, if_neg hcond]
        rfl
      refine ⟨?_, ?_, ?_, ?_⟩
      · rw [hred]
      · rw [hred]
      · rw [hred]
        show alGet (alUpdate s.action_results pid (fun r => { r with success := false, reason := some (killFailReason tid) })) pid = some { r0 with success := false, reason := some (killFailReason tid) }
        rw [alGet_alUpdate, if_pos rfl, hr0]
        rfl
      · intro hc
        have hlen : (killFailReason tid).length = 0 := by
          rw [hc]
          rfl
        have he : (killFailReason tid).length =
            ("Target " ++ tid ++ " is not in your room after movement resolved or is dead.").length := rfl
        rw [String.length_append, String.length_append] at he
        have h1 : ("Target " : String).length = 7 := rfl
        have h2 : (" is not in your room after movement resolved or is dead." : String).length = 56 := rfl
        omega

/-- A concrete kill scene: impostor `p2` and crewmate `p1` share the
Cafeteria; `p2` has a validated kill on `p1`. -/
def killScene : GameState :=
  { config := {},
    players := [{ id := "p1", role := .crewmate },
                { id := "p2", role := .impostor }],
    action_results := [("p2", ⟨"kill", true, none⟩)] }

/-- Witness for `C2_kill_resolution`: in `killScene` the kill step leaves
`p1` dead. -/
theorem C2_kill_resolution_witness :
    ((killStep [("p2", RawAction.mk "kill" (some "p1"))] killScene "p2").player
      "p1").map (fun p => p.alive) = some false :=
  ((C2_kill_resolution.2 killScene [("p2", RawAction.mk "kill" (some "p1"))]
      "p2" "p1" { id := "p2", role := .impostor } { id := "p1", role := .crewmate }
      ⟨"kill", true, none⟩ (by decide) (by decide) (by decide) (by decide)
      (by decide)).1 (by decide)).1

/-! ## Claim C3: meeting precedence and the step-7 early return -/

theorem charListLe_refl (as : List Char) : charListLe as as = true := by
  induction as with
  | nil => rfl
  | cons a as ih => simp [charListLe, ih]

theorem strLeP_refl (a : String) : strLeP a a := charListLe_refl a.data

/-- The head of a sorted nonempty id list is `≤` every element. -/
theorem sorted_head_le (caller : String) (rest : List String)
    (hs : (caller :: rest).Sorted strLeP) :
    ∀ x ∈ caller :: rest, strLeP caller x := by
  intro x hx
  rcases List.mem_cons.mp hx with h | h
  · rw [h]
    exact strLeP_refl caller
  · exact (List.sorted_cons.mp hs).1 x h

/-- Looking up a result after the superseded-marking pass: for a
duplicate-free list, everyone in the list except the caller is marked,
everyone else is untouched. -/
theorem failSuperseded_alGet (caller : String) :
    ∀ (l : List String) (m : List (String × ActionResult)), l.Nodup → ∀ q,
      alGet (failSuperseded caller m l) q =
        if q ∈ l ∧ q ≠ caller then (alGet m q).map supersededMark
        else alGet m q := by
  intro l
  induction l with
  | nil =>
    intro m _ q
    simp [failSuperseded]
  | cons a l ih =>
    intro m hnd q
    have hna : a ∉ l := (List.nodup_cons.mp hnd).1
    have hndl : l.Nodup := (List.nodup_cons.mp hnd).2
    have hstep : failSuperseded caller m (a :: l) =
        failSuperseded caller (if a ≠ caller then alUpdate m a supersededMark else m) l := by
      unfold failSuperseded
      rw [List.foldl_cons]
    rw [hstep, ih _ hndl q]
    by_cases hqa : q = a
    · subst hqa
      by_cases hqc : q = caller
      · have hql : ¬ (q ∈ l ∧ q ≠ caller) := fun hc => hc.2 hqc
        have hcond : ¬ (q ∈ q :: l ∧ q ≠ caller) := fun hc => hc.2 hqc
        rw [if_neg hql, if_neg hcond, if_neg (fun hc : ¬ q = caller => hc hqc)]
      · have hql : ¬ (q ∈ l ∧ q ≠ caller) := fun hc => hna hc.1
        have hcond : q ∈ q :: l ∧ q ≠ caller := ⟨List.mem_cons_self q l, hqc⟩
        rw [if_neg hql, if_pos hcond, if_pos hqc, alGet_alUpdate, if_pos rfl]
    · have hm2 : alGet (if a ≠ caller then alUpdate m a supersededMark else m) q =
          alGet m q := by
        by_cases hac : a ≠ caller
        · rw [if_pos hac, alGet_alUpdate, if_neg hqa]
        · rw [if_neg hac]
      by_cases hql : q ∈ l ∧ q ≠ caller
      · have hcond : q ∈ a :: l ∧ q ≠ caller := ⟨List.mem_cons_of_mem a hql.1, hql.2⟩
        rw [if_pos hql, if_pos hcond, hm2]
      · have hcond : ¬ (q ∈ a :: l ∧ q ≠ caller) := by
          intro hc
          rcases List.mem_cons.mp hc.1 with h | h
          · exact hqa h
          · exact hql ⟨h, hc.2⟩
        rw [if_neg hql, if_neg hcond, hm2]

/-- The emergency-branch mutation of step 7: the winning caller loses one
emergency meeting. -/
def decrEmergency (s : GameState) (caller : String) : GameState :=
  let ps := updatePlayer s.players caller (fun p =>
    { p with emergency_meetings_remaining := p.emergency_meetings_remaining - 1 })
  { s with players := ps }

/-- C3.  Meeting resolution: (i) any valid report beats every
call_emergency — when the sorted reporter list is nonempty its
lexicographically smallest id becomes the caller of a `body_report`
meeting, phase becomes DISCUSSION, players (in particular every
emergency caller's `emergency_meetings_remaining`) are untouched, every
other reporter or emergency caller gets a failed superseded result, and
everyone else's result is untouched; (ii) with no reporters, the smallest
emergency caller installs an `emergency_meeting`, exactly that caller's
`emergency_meetings_remaining` is decremented, and the other emergency
callers get failed results; (iii) when step 7 fires, `resolve_round`
returns its output directly, so steps 8-13 never run. -/
theorem C3_meeting_precedence :
    (∀ (s : GameState) (va : List (String × RawAction)) (caller : String)
      (rest : List String),
      reportersOf va = caller :: rest →
      (reportersOf va ++ emergenciesOf va).Nodup →
      (resolveMeetings s va).2 = true ∧
      (resolveMeetings s va).1.phase = .discussion ∧
      (resolveMeetings s va).1.meeting_context.map
        (fun mc => (mc.trigger, mc.called_by)) = some ("body_report", caller) ∧
      (∀ x ∈ reportersOf va, strLeP caller x) ∧
      (resolveMeetings s va).1.players = s.players ∧
      (∀ q, q ∈ reportersOf va ++ emergenciesOf va → q ≠ caller →
        alGet (resolveMeetings s va).1.action_results q =
          (alGet s.action_results q).map supersededMark) ∧
      (∀ q, ¬ (q ∈ reportersOf va ++ emergenciesOf va ∧ q ≠ caller) →
        alGet (resolveMeetings s va).1.action_results q = alGet s.action_results q)) ∧
    (∀ (s : GameState) (va : List (String × RawAction)) (caller : String)
      (rest : List String),
      reportersOf va = [] →
      emergenciesOf va = caller :: rest →
      (emergenciesOf va).Nodup →
      (resolveMeetings s va).2 = true ∧
      (resolveMeetings s va).1.phase = .discussion ∧
      (resolveMeetings s va).1.meeting_context.map
        (fun mc => (mc.trigger, mc.called_by)) = some ("emergency_meeting", caller) ∧
      (∀ x ∈ emergenciesOf va, strLeP caller x) ∧
      (resolveMeetings s va).1.player caller = (s.player caller).map
        (fun p => { p with emergency_meetings_remaining :=
                             p.emergency_meetings_remaining - 1 }) ∧
      (∀ q, q ≠ caller → (resolveMeetings s va).1.player q = s.player q) ∧
      (∀ q, q ∈ emergenciesOf va → q ≠ caller →
        alGet (resolveMeetings s va).1.action_results q =
          (alGet s.action_results q).map supersededMark)) ∧
    (∀ (s : GameState) (actions : List (String × RawAction)) (s2 : GameState)
      (results : List (String × ActionResult)) (va : List (String × RawAction))
      (s7 : GameState),
      step2 (step1 (step0 s)) = (s2, false) →
      validateAll s2 actions = (results, va) →
      (checkWin (resolveKills (resolveMovement
        { s2 with action_results := results } va) va)).winner = none →
      (checkWin (resolveTasks (checkWin (resolveKills (resolveMovement
        { s2 with action_results := results } va) va)) va)).winner = none →
      resolveMeetings (checkWin (resolveTasks (checkWin (resolveKills
        (resolveMovement { s2 with action_results := results } va) va)) va)) va =
        (s7, true) →
      resolveRound s actions = s7) := by
  refine ⟨?_, ?_, ?_⟩
  · intro s va caller rest h hnd
    have hred : resolveMeetings s va =
        (installMeeting s "body_report" caller
          (s.bodies.find? (fun b =>
            b.location = ((s.player caller).map (fun p => p.location)).getD ""))
          (caller :: rest) (emergenciesOf va), true) := by
      unfold resolveMeetings
      rw [h]
    have hnd' : ((caller :: rest) ++ emergenciesOf va).Nodup := by
      rw [← h]
      exact hnd
    have hs : (reportersOf va).Sorted strLeP := List.sorted_insertionSort _ _
    rw [h] at hs
    refine ⟨by rw [hred], by rw [hred]; rfl, by rw [hred]; rfl, ?_,
      by rw [hred]; rfl, ?_, ?_⟩
    · intro x hx
      rw [h] at hx
      exact sorted_head_le caller rest hs x hx
    · intro q hq hqc
      rw [h] at hq
      rw [hred]
      show alGet (failSuperseded caller s.action_results
        ((caller :: rest) ++ emergenciesOf va)) q = _
      rw [failSuperseded_alGet caller _ _ hnd' q, if_pos ⟨hq, hqc⟩]
    · intro q hq
      rw [h] at hq
      rw [hred]
      show alGet (failSuperseded caller s.action_results
        ((caller :: rest) ++ emergenciesOf va)) q = _
      rw [failSuperseded_alGet caller _ _ hnd' q, if_neg hq]
  · intro s va caller rest h0 h hnd
    have hred : resolveMeetings s va =
        (installMeeting (decrEmergency s caller)
          "emergency_meeting" caller none [] (caller :: rest), true) := by
      unfold resolveMeetings
      rw [h0, h]
      rfl
    have hnd' : (([] : List String) ++ (caller :: rest)).Nodup := by
      simp only [List.nil_append]
      rw [← h]
      exact hnd
    have hs : (emergenciesOf va).Sorted strLeP := List.sorted_insertionSort _ _
    rw [h] at hs
    refine ⟨by rw [hred], by rw [hred]; rfl, by rw [hred]; rfl, ?_, ?_, ?_, ?_⟩
    · intro x hx
      rw [h] at hx
      exact sorted_head_le caller rest hs x hx
    · rw [hred]
      show (updatePlayer s.players caller (fun p =>
          { p with emergency_meetings_remaining :=
                     p.emergency_meetings_remaining - 1 })).find?
            (fun p => p.id = caller) =
        (s.player caller).map (fun p =>
          { p with emergency_meetings_remaining :=
                     p.emergency_meetings_remaining - 1 })
      rw [player_updatePlayer s.players caller caller (fun p =>
        { p with emergency_meetings_remaining :=
                   p.emergency_meetings_remaining - 1 }) (fun p => rfl), if_pos rfl]
      rfl
    · intro q hq
      rw [hred]
      show (updatePlayer s.players caller (fun p =>
          { p with emergency_meetings_remaining :=
                     p.emergency_meetings_remaining - 1 })).find?
            (fun p => p.id = q) = s.player q
      rw [player_updatePlayer s.players caller q (fun p =>
        { p with emergency_meetings_remaining :=
                   p.emergency_meetings_remaining - 1 }) (fun p => rfl), if_neg hq]
      rfl
    · intro q hq hqc
      rw [h] at hq
      rw [hred]
      show alGet (failSuperseded caller s.action_results ([] ++ (caller :: rest))) q = _
      rw [failSuperseded_alGet caller _ _ hnd' q,
        if_pos ⟨by simp only [List.nil_append]; exact hq, hqc⟩]
  · intro s actions s2 results va s7 hs2 hva h5 h6 hm
    have hres : resolveRound s actions = resolveRoundAfter2 s2 actions := by
      simp only [resolveRound, hs2]
    have h5' : (checkWin (resolveKills (resolveMovement
        { s2 with action_results := results } va) va)).winner.isSome = false := by
      rw [h5]
      rfl
    have h6' : (checkWin (resolveTasks (checkWin (resolveKills (resolveMovement
        { s2 with action_results := results } va) va)) va)).winner.isSome = false := by
      rw [h6]
      rfl
    rw [hres]
    simp only [resolveRoundAfter2, hva, h5', h6', hm, Bool.false_eq_true, if_false]

/-- Witness for `C3_meeting_precedence`: with validated reports from `p5`
and `p3` and an emergency call from `p4`, a meeting fires (and `p3`, the
lexicographically smallest reporter, wins). -/
theorem C3_meeting_precedence_witness :
    (resolveMeetings reportState
      [("p5", RawAction.mk "report" none), ("p3", RawAction.mk "report" none),
       ("p4", RawAction.mk "call_emergency" none)]).2 = true ∧
    (resolveMeetings reportState
      [("p5", RawAction.mk "report" none), ("p3", RawAction.mk "report" none),
       ("p4", RawAction.mk "call_emergency" none)]).1.meeting_context.map
        (fun mc => (mc.trigger, mc.called_by)) = some ("body_report", "p3") :=
  ⟨(C3_meeting_precedence.1 reportState
      [("p5", RawAction.mk "report" none), ("p3", RawAction.mk "report" none),
       ("p4", RawAction.mk "call_emergency" none)] "p3" ["p5"]
      (by decide) (by decide)).1,
   (C3_meeting_precedence.1 reportState
      [("p5", RawAction.mk "report" none), ("p3", RawAction.mk "report" none),
       ("p4", RawAction.mk "call_emergency" none)] "p3" ["p5"]
      (by decide) (by decide)).2.2.1⟩

/-! ## Claim C8: lights sabotage blinds crewmates only -/

/-- The id list is untouched by an id-preserving roster update. -/
theorem ids_updatePlayer (ps : List Player) (pid : String) (f : Player → Player)
    (hf : ∀ p, (f p).id = p.id) :
    (updatePlayer ps pid f).map Player.id = ps.map Player.id := by
  unfold updatePlayer
  rw [List.map_map]
  apply List.map_congr_left
  intro p _
  dsimp only [Function.comp]
  split
  · exact hf p
  · rfl

/-- Characterization of the kill-witness fold: it never touches the
sabotage, and (for a duplicate-free roster) a player's event list gains the
kill event iff that player satisfies the witness condition — alive,
co-located, not blinded, neither killer nor victim. -/
theorem notifyKW_fold_events (a b c d w : String) :
    ∀ (ps : List Player) (st : GameState), (ps.map Player.id).Nodup →
      (ps.foldl (fun st2 p =>
        if p.alive ∧ p.location = a ∧ ¬ blindedBy st2.sabotage p.role ∧
            p.id ≠ b ∧ p.id ≠ c then
          appendEvent st2 p.id s!"{d} was killed!"
        else st2) st).sabotage = st.sabotage ∧
      alGet (ps.foldl (fun st2 p =>
        if p.alive ∧ p.location = a ∧ ¬ blindedBy st2.sabotage p.role ∧
            p.id ≠ b ∧ p.id ≠ c then
          appendEvent st2 p.id s!"{d} was killed!"
        else st2) st).events w =
        (match ps.find? (fun p => p.id = w) with
         | some p =>
           if p.alive ∧ p.location = a ∧ ¬ blindedBy st.sabotage p.role ∧
               p.id ≠ b ∧ p.id ≠ c then
             (alGet st.events w).map (fun l => l ++ [s!"{d} was killed!"])
           else alGet st.events w
         | none => alGet st.events w) := by
  intro ps
  induction ps with
  | nil =>
    intro st _
    exact ⟨rfl, rfl⟩
  | cons p ps ih =>
    intro st hnd
    have hnd' : (ps.map Player.id).Nodup := by
      rw [List.map_cons] at hnd
      exact (List.nodup_cons.mp hnd).2
    have hpm : p.id ∉ ps.map Player.id := by
      rw [List.map_cons] at hnd
      exact (List.nodup_cons.mp hnd).1
    simp only [List.foldl_cons]
    by_cases hc : p.alive = true ∧ p.location = a ∧ ¬ blindedBy st.sabotage p.role = true ∧
        p.id ≠ b ∧ p.id ≠ c
    · rw [if_pos hc]
      obtain ⟨ihs, ihe⟩ := ih (appendEvent st p.id s!"{d} was killed!") hnd'
      have hsab : (appendEvent st p.id s!"{d} was killed!").sabotage = st.sabotage := rfl
      rw [hsab] at ihs ihe
      refine ⟨ihs, ?_⟩
      rw [ihe, findPlayer_cons]
      by_cases hpw : p.id = w
      · have hfind : ps.find? (fun q => q.id = w) = none := by
          rw [List.find?_eq_none]
          intro x hx
          simp only [decide_eq_true_eq]
          intro hxw
          exact hpm (hpw ▸ hxw ▸ List.mem_map_of_mem Player.id hx)
        rw [if_pos hpw, hfind]
        show alGet (alUpdate st.events p.id (fun l => l ++ [s!"{d} was killed!"])) w =
          if p.alive = true ∧ p.location = a ∧ ¬ blindedBy st.sabotage p.role = true ∧
              p.id ≠ b ∧ p.id ≠ c then
            (alGet st.events w).map (fun l => l ++ [s!"{d} was killed!"])
          else alGet st.events w
        rw [if_pos hc, alGet_alUpdate, if_pos hpw.symm, hpw]
      · rw [if_neg hpw]
        have hev : alGet (appendEvent st p.id s!"{d} was killed!").events w =
            alGet st.events w := by
          show alGet (alUpdate st.events p.id (fun l => l ++ [s!"{d} was killed!"])) w =
            alGet st.events w
          rw [alGet_alUpdate, if_neg (fun hcc => hpw hcc.symm)]
        cases hfind : ps.find? (fun q => q.id = w) with
        | none => exact hev
        | some q =>
          rw [hev]

    · rw [if_neg hc]
      obtain ⟨ihs, ihe⟩ := ih st hnd'
      refine ⟨ihs, ?_⟩
      rw [ihe, findPlayer_cons]
      by_cases hpw : p.id = w
      · have hfind : ps.find? (fun q => q.id = w) = none := by
          rw [List.find?_eq_none]
          intro x hx
          simp only [decide_eq_true_eq]
          intro hxw
          exact hpm (hpw ▸ hxw ▸ List.mem_map_of_mem Player.id hx)
        rw [if_pos hpw, hfind]
        show alGet st.events w =
          if p.alive = true ∧ p.location = a ∧ ¬ blindedBy st.sabotage p.role = true ∧
              p.id ≠ b ∧ p.id ≠ c then
            (alGet st.events w).map (fun l => l ++ [s!"{d} was killed!"])
          else alGet st.events w
        rw [if_neg hc]
      · rw [if_neg hpw]

/-- C8.  While a `lights` sabotage is active: (1) a crewmate's task-phase
room observation reports empty `players_present` and `bodies_present`
regardless of who shares the room; (2) an impostor's room observation is
the unfiltered one, lights or not; (3) on a kill of a live, co-located
crewmate the kill still succeeds (the victim's alive flag becomes false),
every crewmate — in particular a co-located witness — receives no kill
event, while a living co-located impostor bystander still receives the
event. -/
theorem C8_lights_blinding :
    (∀ (s : GameState) (pid : String) (p : Player) (sab : ActiveSabotage),
      s.sabotage = some sab → sab.type = .lights → p.role = .crewmate →
      roomObservations s pid p = ([], [])) ∧
    (∀ (s : GameState) (pid : String) (p : Player), p.role = .impostor →
      roomObservations s pid p =
        ((s.players.filter (fun q =>
          q.id ≠ pid ∧ q.alive ∧ q.location = p.location)).map
            (fun q => (q.id, q.last_action)),
         (s.bodies.filter (fun b => b.location = p.location)).map
           (fun b => b.player_id))) ∧
    (∀ (s : GameState) (va : List (String × RawAction)) (pid tid : String)
      (killer target : Player) (sab : ActiveSabotage),
      s.sabotage = some sab → sab.type = .lights →
      (s.players.map Player.id).Nodup →
      s.player pid = some killer →
      (alGet va pid).bind (fun a => a.tgt) = some tid →
      s.player tid = some target →
      pid ≠ tid →
      target.role = .crewmate →
      target.alive = true → target.location = killer.location →
      ((killStep va s pid).player tid).map (fun p => p.alive) = some false ∧
      (∀ w wp, s.player w = some wp → wp.role = .crewmate →
        alGet (killStep va s pid).events w = alGet s.events w) ∧
      (∀ w wp, s.player w = some wp → wp.role = .impostor →
        w ≠ pid → wp.alive = true → wp.location = killer.location →
        alGet (killStep va s pid).events w =
          (alGet s.events w).map (fun l => l ++ [s!"{tid} was killed!"]))) := by
  refine ⟨?_, ?_, ?_⟩
  · intro s pid p sab hsab htype hrole
    have hb : blindedBy s.sabotage p.role = true := by
      rw [hsab]
      simp [blindedBy, htype, hrole]
    unfold roomObservations
    rw [if_pos hb]
  · intro s pid p hrole
    have hb : blindedBy s.sabotage p.role = false := by
      cases hsab : s.sabotage with
      | none => rfl
      | some sab => simp [blindedBy, hrole]
    unfold roomObservations
    rw [hb]
    simp
  · intro s va pid tid killer target sab hsab htype hnd hp hbind ht hne htrole halive hloc
    have ht' : s.players.find? (fun p => p.id = tid) = some target := ht
    have hp' : s.players.find? (fun p => p.id = pid) = some killer := hp
    have htid : target.id = tid := by
      have h2 := List.find?_some ht'
      simpa using h2
    have hkid : killer.id = pid := by
      have h2 := List.find?_some hp'
      simpa using h2
    have hred := killStep_success_eq s va pid tid killer target hp hbind ht ⟨halive, hloc⟩
    have hSids : ((killAftermath s pid tid target).players.map Player.id) =
        s.players.map Player.id := by
      show ((updatePlayer (updatePlayer s.players target.id
        (fun q => { q with alive := false })) pid
        (fun q => { q with kill_cooldown := s.config.kill_cooldown })).map Player.id) = _
      rw [ids_updatePlayer (updatePlayer s.players target.id
        (fun q => { q with alive := false })) pid
        (fun q => { q with kill_cooldown := s.config.kill_cooldown }) (fun p => rfl)]
      rw [ids_updatePlayer s.players target.id
        (fun q => { q with alive := false }) (fun p => rfl)]
    have hndS : ((killAftermath s pid tid target).players.map Player.id).Nodup := by
      rw [hSids]
      exact hnd
    have hfold := notifyKW_fold_events killer.location killer.id target.id tid
    -- lookup in the post-kill roster
    have hfindS : ∀ w : String,
        (killAftermath s pid tid target).players.find? (fun p => p.id = w) =
          (if w = pid then (s.players.find? (fun p => p.id = w)).map
            (fun q => { q with kill_cooldown := s.config.kill_cooldown })
           else if w = target.id then (s.players.find? (fun p => p.id = w)).map
            (fun q => { q with alive := false })
           else s.players.find? (fun p => p.id = w)) := by
      intro w
      show (updatePlayer (updatePlayer s.players target.id
        (fun q => { q with alive := false })) pid
        (fun q => { q with kill_cooldown := s.config.kill_cooldown })).find?
          (fun p => p.id = w) = _
      rw [player_updatePlayer (updatePlayer s.players target.id
        (fun q => { q with alive := false })) pid w
        (fun q => { q with kill_cooldown := s.config.kill_cooldown }) (fun p => rfl)]
      by_cases hw : w = pid
      · have hnt : ¬ w = target.id := by
          rw [hw, htid]
          exact hne
        rw [if_pos hw, if_pos hw,
          player_updatePlayer s.players target.id w
            (fun q => { q with alive := false }) (fun p => rfl)]
        rw [if_neg hnt]
      · rw [if_neg hw, if_neg hw,
          player_updatePlayer s.players target.id w
            (fun q => { q with alive := false }) (fun p => rfl)]
    refine ⟨?_, ?_, ?_⟩
    · rw [hred]
      show ((notifyKillWitnesses killer.location killer.id target.id tid
        (killAftermath s pid tid target)).players.find? (fun p => p.id = tid)).map
          (fun p => p.alive) = some false
      rw [(notifyKillWitnesses_fields killer.location killer.id target.id tid
        (killAftermath s pid tid target)).1]
      rw [hfindS tid, if_neg (fun hc => hne hc.symm), if_pos htid.symm, ht']
      rfl
    · intro w wp hw hwrole
      have hw' : s.players.find? (fun p => p.id = w) = some wp := hw
      have hwid : wp.id = w := by
        have h2 := List.find?_some hw'
        simpa using h2
      rw [hred]
      have h2 := (hfold w (killAftermath s pid tid target).players
        (killAftermath s pid tid target) hndS).2
      have h3 : alGet (notifyKillWitnesses killer.location killer.id target.id tid
          (killAftermath s pid tid target)).events w =
          (match (killAftermath s pid tid target).players.find? (fun p => p.id = w) with
           | some p =>
             if p.alive = true ∧ p.location = killer.location ∧
                 ¬ blindedBy (killAftermath s pid tid target).sabotage p.role = true ∧
                 p.id ≠ killer.id ∧ p.id ≠ target.id then
               (alGet (killAftermath s pid tid target).events w).map
                 (fun l => l ++ [s!"{tid} was killed!"])
             else alGet (killAftermath s pid tid target).events w
           | none => alGet (killAftermath s pid tid target).events w) := h2
      rw [h3, hfindS w]
      by_cases hwpid : w = pid
      · rw [if_pos hwpid]
        rw [hw']
        have hcond : ¬ ((({ wp with kill_cooldown := s.config.kill_cooldown } : Player)).alive = true ∧
            ({ wp with kill_cooldown := s.config.kill_cooldown } : Player).location = killer.location ∧
            ¬ blindedBy (killAftermath s pid tid target).sabotage
              ({ wp with kill_cooldown := s.config.kill_cooldown } : Player).role = true ∧
            ({ wp with kill_cooldown := s.config.kill_cooldown } : Player).id ≠ killer.id ∧
            ({ wp with kill_cooldown := s.config.kill_cooldown } : Player).id ≠ target.id) := by
          intro hc
          exact hc.2.2.2.1 (by show wp.id = killer.id; rw [hwid, hkid, hwpid])
        show (if _ then _ else _) = _
        rw [if_neg hcond]
        rfl
      · rw [if_neg hwpid]
        by_cases hwtid : w = target.id
        · rw [if_pos hwtid, hw']
          have hcond : ¬ ((({ wp with alive := false } : Player)).alive = true ∧
              ({ wp with alive := false } : Player).location = killer.location ∧
              ¬ blindedBy (killAftermath s pid tid target).sabotage
                ({ wp with alive := false } : Player).role = true ∧
              ({ wp with alive := false } : Player).id ≠ killer.id ∧
              ({ wp with alive := false } : Player).id ≠ target.id) := by
            intro hc
            exact Bool.false_ne_true hc.1
          show (if _ then _ else _) = _
          rw [if_neg hcond]
          rfl
        · rw [if_neg hwtid, hw']
          have hblind : blindedBy (killAftermath s pid tid target).sabotage wp.role = true := by
            show blindedBy s.sabotage wp.role = true
            rw [hsab]
            simp [blindedBy, htype, hwrole]
          have hcond : ¬ (wp.alive = true ∧ wp.location = killer.location ∧
              ¬ blindedBy (killAftermath s pid tid target).sabotage wp.role = true ∧
              wp.id ≠ killer.id ∧ wp.id ≠ target.id) := by
            intro hc
            exact hc.2.2.1 hblind
          show (if _ then _ else _) = _
          rw [if_neg hcond]
          rfl
    · intro w wp hw hwrole hwpid hwalive hwloc
      have hw' : s.players.find? (fun p => p.id = w) = some wp := hw
      have hwid : wp.id = w := by
        have h2 := List.find?_some hw'
        simpa using h2
      have hwtid : ¬ w = target.id := by
        intro hc
        rw [htid] at hc
        rw [hc] at hw
        rw [ht] at hw
        have : wp = target := by
          injection hw with h4
          exact h4.symm
        rw [this, htrole] at hwrole
        exact absurd hwrole (by decide)
      rw [hred]
      have h2 := (hfold w (killAftermath s pid tid target).players
        (killAftermath s pid tid target) hndS).2
      have h3 : alGet (notifyKillWitnesses killer.location killer.id target.id tid
          (killAftermath s pid tid target)).events w =
          (match (killAftermath s pid tid target).players.find? (fun p => p.id = w) with
           | some p =>
             if p.alive = true ∧ p.location = killer.location ∧
                 ¬ blindedBy (killAftermath s pid tid target).sabotage p.role = true ∧
                 p.id ≠ killer.id ∧ p.id ≠ target.id then
               (alGet (killAftermath s pid tid target).events w).map
                 (fun l => l ++ [s!"{tid} was killed!"])
             else alGet (killAftermath s pid tid target).events w
           | none => alGet (killAftermath s pid tid target).events w) := h2
      rw [h3, hfindS w, if_neg hwpid, if_neg hwtid, hw']
      have hnblind : blindedBy (killAftermath s pid tid target).sabotage wp.role = false := by
        show blindedBy s.sabotage wp.role = false
        rw [hsab]
        simp [blindedBy, hwrole]
      have hcond : wp.alive = true ∧ wp.location = killer.location ∧
          ¬ blindedBy (killAftermath s pid tid target).sabotage wp.role = true ∧
          wp.id ≠ killer.id ∧ wp.id ≠ target.id := by
        refine ⟨hwalive, hwloc, ?_, ?_, ?_⟩
        · rw [hnblind]
          exact Bool.false_ne_true
        · rw [hwid, hkid]
          exact hwpid
        · rw [hwid]
          exact hwtid
      show (if _ then _ else _) = _
      rw [if_pos hcond]
      rfl

/-- A concrete lights scene: impostors `pI`, `pJ` and crewmates `pA`, `pB`
share Electrical under an active lights sabotage. -/
def lightsScene : GameState :=
  { config := {},
    players := [{ id := "pA", role := .crewmate, location := "Electrical" },
                { id := "pB", role := .crewmate, location := "Electrical" },
                { id := "pI", role := .impostor, location := "Electrical" },
                { id := "pJ", role := .impostor, location := "Electrical" }],
    sabotage := some ⟨.lights, false, none, [("Electrical", 0)], [("Electrical", 3)]⟩ }

/-- Witness for `C8_lights_blinding`: in `lightsScene` the kill of `pA` by
`pI` succeeds while the blinded crewmate `pB` receives no event. -/
theorem C8_lights_blinding_witness :
    ((killStep [("pI", RawAction.mk "kill" (some "pA"))] lightsScene "pI").player
      "pA").map (fun p => p.alive) = some false ∧
    alGet (killStep [("pI", RawAction.mk "kill" (some "pA"))] lightsScene
      "pI").events "pB" = alGet lightsScene.events "pB" :=
  ⟨(C8_lights_blinding.2.2 lightsScene [("pI", RawAction.mk "kill" (some "pA"))]
      "pI" "pA" { id := "pI", role := .impostor, location := "Electrical" }
      { id := "pA", role := .crewmate, location := "Electrical" }
      ⟨.lights, false, none, [("Electrical", 0)], [("Electrical", 3)]⟩
      rfl rfl (by decide) (by decide) (by decide) (by decide) (by decide)
      rfl rfl rfl).1,
   (C8_lights_blinding.2.2 lightsScene [("pI", RawAction.mk "kill" (some "pA"))]
      "pI" "pA" { id := "pI", role := .impostor, location := "Electrical" }
      { id := "pA", role := .crewmate, location := "Electrical" }
      ⟨.lights, false, none, [("Electrical", 0)], [("Electrical", 3)]⟩
      rfl rfl (by decide) (by decide) (by decide) (by decide) (by decide)
      rfl rfl rfl).2.1 "pB"
      { id := "pB", role := .crewmate, location := "Electrical" }
      (by decide) rfl⟩

/-- Counting a team in the pre-shuffle role multiset `teams * k`. -/
theorem count_repeatTeams (teams : List String) (k : Nat) (t : String) :
    (repeatTeams teams k).count t = k * teams.count t := by
  induction k with
  | zero => simp [repeatTeams]
  | succ n ih =>
    simp only [repeatTeams, List.replicate_succ, List.flatten_cons,
      List.count_append]
    rw [show ((List.replicate n teams).flatten).count t
        = (repeatTeams teams n).count t from rfl, ih]
    ring

/-- Fallback-bot padding never contains a real team. -/
theorem count_fillSeats (n : Nat) (q : List String) (t : String)
    (h : t ≠ FALLBACK) : (fillSeats n q).count t = (q.take n).count t := by
  simp [fillSeats, List.count_replicate, h]
  intro hh
  exact absurd hh.symm h

/-- Every filled seat row has exactly the requested number of seats. -/
theorem length_fillSeats (n : Nat) (q : List String) :
    (fillSeats n q).length = n := by
  simp [fillSeats]
  omega

/-- A seat row holding one role contributes no seats of a different role. -/
theorem seatRow_other (l : List String) (t : String) (r r₀ : Role)
    (h : r₀ ≠ r) :
    ((l.map (fun x => (x, r₀))).filter
      (fun seat => seat.1 = t ∧ seat.2 = r)).length = 0 := by
  induction l with
  | nil => rfl
  | cons a l ih => simp [List.filter_cons, h, ih]

/-- A seat row holding a role seats each team as often as the team appears
in the row's queue segment. -/
theorem seatRow_same (l : List String) (t : String) (r : Role) :
    ((l.map (fun x => (x, r))).filter
      (fun seat => seat.1 = t ∧ seat.2 = r)).length = l.count t := by
  induction l with
  | nil => rfl
  | cons a l ih =>
    simp only [Bool.decide_and] at ih ⊢
    by_cases ha : a = t
    · subst ha
      simp [List.filter_cons, List.count_cons, ih]
    · simp [List.filter_cons, List.count_cons, ha, ih]

/-- Seat counting splits across the head lobby. -/
theorem seatCount_cons (lob : List (String × Role))
    (rest : List (List (String × Role))) (t : String) (r : Role) :
    seatCount (lob :: rest) t r =
      (lob.filter (fun seat => seat.1 = t ∧ seat.2 = r)).length
        + seatCount rest t r := by
  simp [seatCount, List.filter_append]

/-- With positive seat counts and enough fuel to drain both queues, the
dealing loop seats a non-fallback team exactly as often as the team occurs
in each role queue. -/
theorem dealLobbies_count (ni nc : Nat) (hni : 1 ≤ ni) (hnc : 1 ≤ nc)
    (t : String) (h : t ≠ FALLBACK) :
    ∀ (fuel : Nat) (impQ crewQ : List String),
      impQ.length + crewQ.length ≤ fuel →
      seatCount (dealLobbies ni nc fuel impQ crewQ) t Role.impostor
          = impQ.count t ∧
      seatCount (dealLobbies ni nc fuel impQ crewQ) t Role.crewmate
          = crewQ.count t := by
  intro fuel
  induction fuel with
  | zero =>
    intro impQ crewQ hle
    have h1 : impQ = [] := List.eq_nil_of_length_eq_zero (by omega)
    have h2 : crewQ = [] := List.eq_nil_of_length_eq_zero (by omega)
    subst h1; subst h2
    exact ⟨rfl, rfl⟩
  | succ n ih =>
    intro impQ crewQ hle
    by_cases hemp : impQ.isEmpty ∧ crewQ.isEmpty
    · have h1 : impQ = [] := List.isEmpty_iff.mp hemp.1
      have h2 : crewQ = [] := List.isEmpty_iff.mp hemp.2
      subst h1; subst h2
      constructor <;> simp [dealLobbies, seatCount]
    · have hdeal : dealLobbies ni nc (n + 1) impQ crewQ =
          ((fillSeats ni impQ).map (fun x => (x, Role.impostor)) ++
            (fillSeats nc crewQ).map (fun x => (x, Role.crewmate))) ::
          dealLobbies ni nc n (impQ.drop ni) (crewQ.drop nc) := by
        simp [dealLobbies, hemp]
        intro h1 h2
        exact hemp (by simp [h1, h2])
      have hor : 1 ≤ impQ.length ∨ 1 ≤ crewQ.length := by
        by_contra hcon
        push_neg at hcon
        obtain ⟨ha, hb⟩ := hcon
        have ha' : impQ = [] := List.eq_nil_of_length_eq_zero (by omega)
        have hb' : crewQ = [] := List.eq_nil_of_length_eq_zero (by omega)
        exact hemp (by simp [ha', hb'])
      have hfuel : (impQ.drop ni).length + (crewQ.drop nc).length ≤ n := by
        simp only [List.length_drop]
        omega
      obtain ⟨ih1, ih2⟩ := ih (impQ.drop ni) (crewQ.drop nc) hfuel
      have himp : (impQ.take ni).count t + (impQ.drop ni).count t
          = impQ.count t := by
        rw [← List.count_append, List.take_append_drop]
      have hcrew : (crewQ.take nc).count t + (crewQ.drop nc).count t
          = crewQ.count t := by
        rw [← List.count_append, List.take_append_drop]
      rw [hdeal]
      constructor
      · rw [seatCount_cons, List.filter_append, List.length_append,
          seatRow_same, seatRow_other _ _ _ _ (by decide), ih1,
          count_fillSeats _ _ _ h]
        omega
      · rw [seatCount_cons, List.filter_append, List.length_append,
          seatRow_same, seatRow_other _ _ _ _ (by decide), ih2,
          count_fillSeats _ _ _ h]
        omega

/-- Every lobby the dealing loop emits has all its seats filled. -/
theorem dealLobbies_lobby_length (ni nc : Nat) :
    ∀ (fuel : Nat) (impQ crewQ : List String) lobby,
      lobby ∈ dealLobbies ni nc fuel impQ crewQ → lobby.length = ni + nc := by
  intro fuel
  induction fuel with
  | zero =>
    intro impQ crewQ lobby hmem
    simp [dealLobbies] at hmem
  | succ n ih =>
    intro impQ crewQ lobby hmem
    by_cases hemp : impQ.isEmpty ∧ crewQ.isEmpty
    · simp [dealLobbies, hemp] at hmem
    · have hdeal : dealLobbies ni nc (n + 1) impQ crewQ =
          ((fillSeats ni impQ).map (fun x => (x, Role.impostor)) ++
            (fillSeats nc crewQ).map (fun x => (x, Role.crewmate))) ::
          dealLobbies ni nc n (impQ.drop ni) (crewQ.drop nc) := by
        simp [dealLobbies, hemp]
        intro h1 h2
        exact hemp (by simp [h1, h2])
      rw [hdeal] at hmem
      rcases List.mem_cons.mp hmem with heq | hrest
      · subst heq
        simp [length_fillSeats]
      · exact ih _ _ lobby hrest

/-- C9.  Balanced tournament scheduling: with `imp_per_team =
⌈G·num_impostors/num_players⌉` and `crew_per_team = G − imp_per_team`, for
every shuffle of the two role multisets (`teams * imp_per_team` and
`teams * crew_per_team`) the dealt schedule seats every team exactly
`imp_per_team` times as impostor and exactly `crew_per_team` times as
crewmate, and every lobby has exactly `num_players` seats
(`num_impostors` impostor seats plus the rest), empty seats being filled
by the fallback bot. -/
theorem C9_balanced_schedule (G ni np : Nat) (teams impQ crewQ : List String)
    (t : String) (hni : 1 ≤ ni) (hnc : 1 ≤ np - ni)
    (hip : impQ.Perm (repeatTeams teams (impPerTeam G ni np)))
    (hcp : crewQ.Perm (repeatTeams teams (crewPerTeam G ni np)))
    (hnd : teams.Nodup) (ht : t ∈ teams) (hf : t ≠ FALLBACK) :
    seatCount (generate_balanced_matchups ni np impQ crewQ) t Role.impostor
        = impPerTeam G ni np ∧
    seatCount (generate_balanced_matchups ni np impQ crewQ) t Role.crewmate
        = crewPerTeam G ni np ∧
    ∀ lobby ∈ generate_balanced_matchups ni np impQ crewQ,
      lobby.length = ni + (np - ni) := by
  have hone : teams.count t = 1 := List.count_eq_one_of_mem hnd ht
  have hic : impQ.count t = impPerTeam G ni np := by
    rw [hip.count_eq, count_repeatTeams, hone, Nat.mul_one]
  have hcc : crewQ.count t = crewPerTeam G ni np := by
    rw [hcp.count_eq, count_repeatTeams, hone, Nat.mul_one]
  obtain ⟨h1, h2⟩ := dealLobbies_count ni (np - ni) hni hnc t hf
    (impQ.length + crewQ.length) impQ crewQ (Nat.le_refl _)
  refine ⟨?_, ?_, ?_⟩
  · rw [generate_balanced_matchups, h1, hic]
  · rw [generate_balanced_matchups, h2, hcc]
  · intro lobby hmem
    exact dealLobbies_lobby_length ni (np - ni) _ impQ crewQ lobby hmem

/-- Witness for `C9_balanced_schedule`: two teams, `G = 3` target games,
config `2` impostors among `7` players gives `imp_per_team = ⌈6/7⌉ = 1`
and `crew_per_team = 2`; on identity shuffles team `alpha` is seated once
as impostor and twice as crewmate, in full 7-seat lobbies. -/
theorem C9_balanced_schedule_witness :
    seatCount (generate_balanced_matchups 2 7 ["alpha", "beta"]
        ["alpha", "beta", "alpha", "beta"]) "alpha" Role.impostor
      = impPerTeam 3 2 7 ∧
    seatCount (generate_balanced_matchups 2 7 ["alpha", "beta"]
        ["alpha", "beta", "alpha", "beta"]) "alpha" Role.crewmate
      = crewPerTeam 3 2 7 ∧
    ∀ lobby ∈ generate_balanced_matchups 2 7 ["alpha", "beta"]
        ["alpha", "beta", "alpha", "beta"], lobby.length = 2 + (7 - 2) :=
  C9_balanced_schedule 3 2 7 ["alpha", "beta"] ["alpha", "beta"]
    ["alpha", "beta", "alpha", "beta"] "alpha" (by decide) (by decide)
    (by decide) (by decide) (by decide) (by decide) (by decide)

end AmongUs
